import Mathlib

/-
  Verification development for the batchscan repository.

  Shallow embedding of the incremental batch-scan reconciliation engine:
  - the SQLite-backed catalog (src/batchscan/core/repository.py and
    src/batchscan/core/db_init.py) is modelled as an in-memory `Catalog`
    of row lists with autoincrement counters, and each repository method
    used by the scanner as a pure function on it;
  - the reconciler (src/batchscan/core/batch_scanner.py, class
    BatchScanner: scan_directory, scan_recursive,
    _copy_photo_metadata_and_tags) is embedded as functions over an
    explicit state, with the external collaborators (the filesystem's
    getsize/md5 reads, PhotoScanner.process_single_image, the store
    faults the copy step can hit) supplied by an oracle environment
    `ScanEnv`, and uncaught Python exceptions modelled as `Except.error`;
  - PhotoScanner.get_image_metadata (src/batchscan/core/photo_scanner.py)
    is embedded directly, with `datetime.strptime` as an oracle.
-/

/-- A value stored in the results dict of `process_single_image`: the
metadata extraction yields ints (filesize, width, height, month, year)
and strings (md5), the question answers are strings. -/
inductive Val where
  | nat : Nat → Val
  | str : String → Val
deriving DecidableEq, Repr

def Val.asNat : Val → Option Nat
  | .nat n => some n
  | .str _ => none

def Val.asStr : Val → Option String
  | .nat _ => none
  | .str s => some s

/-- Row of the `folders` table. -/
structure FolderRow where
  id : Nat
  path : String
deriving DecidableEq, Repr

/-- Row of the `photos` table (db_init.py): nullable columns are
`Option`. `is_completed` is the 0/1 integer the code stores. -/
structure Photo where
  id : Nat
  folderid : Nat
  fullpath : String
  filename : String
  is_completed : Nat
  filesize : Option Nat
  md5 : Option String
  width : Option Nat
  height : Option Nat
  month : Option Nat
  year : Option Nat
deriving DecidableEq, Repr

/-- Row of the `metadata` table. -/
structure MetadataRow where
  id : Nat
  photo_id : Nat
  key : String
  value : Val
deriving DecidableEq, Repr

/-- Row of the `tags` table. -/
structure TagRow where
  id : Nat
  photo_id : Nat
  tag : String
deriving DecidableEq, Repr

/-- The relational catalog: the four tables the scanner touches, plus
the AUTOINCREMENT counters. (The `photo_preview` table is never touched
by the scanner and is omitted.) -/
structure Catalog where
  folders : List FolderRow
  photos : List Photo
  metadata : List MetadataRow
  tags : List TagRow
  nextFolderId : Nat
  nextPhotoId : Nat
  nextMetadataId : Nat
  nextTagId : Nat
deriving DecidableEq, Repr

def Catalog.empty : Catalog :=
  { folders := [], photos := [], metadata := [], tags := [],
    nextFolderId := 1, nextPhotoId := 1, nextMetadataId := 1, nextTagId := 1 }

/-- Well-formedness of the catalog: every row id is below its table's
autoincrement counter, and child rows reference photo ids below the
photo counter (so a freshly inserted photo id collides with nothing). -/
def Catalog.WF (c : Catalog) : Prop :=
  (∀ f ∈ c.folders, f.id < c.nextFolderId) ∧
  (∀ p ∈ c.photos, p.id < c.nextPhotoId) ∧
  (∀ r ∈ c.metadata, r.photo_id < c.nextPhotoId) ∧
  (∀ t ∈ c.tags, t.photo_id < c.nextPhotoId)

instance (c : Catalog) : Decidable c.WF := by
  unfold Catalog.WF
  infer_instance

/-- `FolderRepository.get_folder_by_path`: SELECT * FROM folders WHERE path = ?. -/
def get_folder_by_path (c : Catalog) (path : String) : Option FolderRow :=
  c.folders.find? (fun f => f.path == path)

/-- `FolderRepository.add_folder`: INSERT the path; on the UNIQUE
constraint violation (IntegrityError) the transaction leaves the table
unchanged and the existing row's id is returned. -/
def add_folder (c : Catalog) (path : String) : Catalog × Nat :=
  match get_folder_by_path c path with
  | some f => (c, f.id)
  | none =>
    ({ c with folders := c.folders ++ [⟨c.nextFolderId, path⟩],
              nextFolderId := c.nextFolderId + 1 },
     c.nextFolderId)

/-- `PhotoRepository.add_photo`: INSERT INTO photos, returning lastrowid. -/
def add_photo (c : Catalog) (folderid : Nat) (fullpath filename : String)
    (is_completed : Nat) (filesize : Option Nat) (md5 : Option String)
    (width height month year : Option Nat) : Catalog × Nat :=
  ({ c with
      photos := c.photos ++
        [⟨c.nextPhotoId, folderid, fullpath, filename, is_completed,
          filesize, md5, width, height, month, year⟩],
      nextPhotoId := c.nextPhotoId + 1 },
   c.nextPhotoId)

/-- The keyword-argument dict accepted by `PhotoRepository.update_photo`
(only the fields the scanner ever passes; a `none` field is absent from
the kwargs, a `some v` field is set to `v`, which may itself be NULL). -/
structure PhotoUpdates where
  is_completed : Option Nat := none
  filesize : Option (Option Nat) := none
  md5 : Option (Option String) := none
  width : Option (Option Nat) := none
  height : Option (Option Nat) := none
  month : Option (Option Nat) := none
  year : Option (Option Nat) := none
deriving DecidableEq, Repr

def applyUpdates (p : Photo) (u : PhotoUpdates) : Photo :=
  { p with
    is_completed := u.is_completed.getD p.is_completed,
    filesize := u.filesize.getD p.filesize,
    md5 := u.md5.getD p.md5,
    width := u.width.getD p.width,
    height := u.height.getD p.height,
    month := u.month.getD p.month,
    year := u.year.getD p.year }

/-- `PhotoRepository.update_photo`: UPDATE photos SET ... WHERE id = ?. -/
def update_photo (c : Catalog) (photo_id : Nat) (u : PhotoUpdates) : Catalog :=
  { c with photos := c.photos.map (fun p => if p.id == photo_id then applyUpdates p u else p) }

/-- `PhotoRepository.get_photo_by_id`. -/
def get_photo_by_id (c : Catalog) (photo_id : Nat) : Option Photo :=
  c.photos.find? (fun p => p.id == photo_id)

/-- `PhotoRepository.get_photos_by_folder`. -/
def get_photos_by_folder (c : Catalog) (folderid : Nat) : List Photo :=
  c.photos.filter (fun p => p.folderid == folderid)

/-- `PhotoRepository.get_photo_by_filesize_and_md5`:
SELECT * FROM photos WHERE filesize = ? AND md5 = ? AND is_completed = 1 LIMIT 1. -/
def get_photo_by_filesize_and_md5 (c : Catalog) (filesize : Nat) (md5 : String) :
    Option Photo :=
  (c.photos.filter (fun p =>
    p.filesize == some filesize && p.md5 == some md5 && p.is_completed == 1)).head?

/-- `MetaDataRepository.add_metadata`: INSERT INTO metadata. -/
def add_metadata (c : Catalog) (photo_id : Nat) (key : String) (value : Val) :
    Catalog × Nat :=
  ({ c with
      metadata := c.metadata ++ [⟨c.nextMetadataId, photo_id, key, value⟩],
      nextMetadataId := c.nextMetadataId + 1 },
   c.nextMetadataId)

/-- `MetaDataRepository.delete_photo_metadata`: DELETE FROM metadata WHERE photo_id = ?. -/
def delete_photo_metadata (c : Catalog) (photo_id : Nat) : Catalog :=
  { c with metadata := c.metadata.filter (fun r => r.photo_id != photo_id) }

/-- `MetaDataRepository.get_photo_metadata`: SELECT * FROM metadata WHERE photo_id = ?. -/
def get_photo_metadata (c : Catalog) (photo_id : Nat) : List MetadataRow :=
  c.metadata.filter (fun r => r.photo_id == photo_id)

/-- `TagRepository.add_tag`: INSERT INTO tags. -/
def add_tag (c : Catalog) (photo_id : Nat) (tag : String) : Catalog × Nat :=
  ({ c with
      tags := c.tags ++ [⟨c.nextTagId, photo_id, tag⟩],
      nextTagId := c.nextTagId + 1 },
   c.nextTagId)

/-- `TagRepository.delete_photo_tags`: DELETE FROM tags WHERE photo_id = ?. -/
def delete_photo_tags (c : Catalog) (photo_id : Nat) : Catalog :=
  { c with tags := c.tags.filter (fun t => t.photo_id != photo_id) }

/-- `TagRepository.get_photo_tags`: SELECT * FROM tags WHERE photo_id = ?. -/
def get_photo_tags (c : Catalog) (photo_id : Nat) : List TagRow :=
  c.tags.filter (fun t => t.photo_id == photo_id)

/-- External events the scanner triggers: loading the model
(`PhotoScanner.load_model`), reading a file's size+md5 fingerprint
(lines 148-156 of batch_scanner.py), and invoking
`PhotoScanner.process_single_image` (the Inference Gateway). -/
inductive Event where
  | loadModel : Event
  | fingerprintCall : String → Event
  | inferCall : String → Event
deriving DecidableEq, Repr

/-- Oracle environment for one scan: what the filesystem and the
external collaborators answer for each full path.
`fingerprint` models `os.path.getsize` plus the chunked md5 read
(`.error` = an OSError raised there); `infer` models
`PhotoScanner.process_single_image` returning its results dict
(`.error` = any exception it raised); `copyFails` tells whether the
store raises during `_copy_photo_metadata_and_tags` for this candidate
(modelled as raising at its first repository call). -/
structure ScanEnv where
  fingerprint : String → Except String (Nat × String)
  infer : String → Except String (List (String × Val))
  copyFails : String → Bool

/-- The mutable state of a `BatchScanner` object that the scan reads and
writes: the catalog behind the repositories, and the `model_loaded` flag. -/
structure ScannerState where
  catalog : Catalog
  model_loaded : Bool
deriving DecidableEq, Repr

/-- `BatchScanner._ensure_model_loaded`: loads the model once. -/
def ensure_model_loaded (st : ScannerState) : ScannerState × List Event :=
  if st.model_loaded then (st, [])
  else ({ st with model_loaded := true }, [Event.loadModel])

/-- One directory as the scanner sees it: its path, whether
`os.path.exists` and `os.path.isdir` hold, and the `os.listdir` result. -/
structure DirEntry where
  path : String
  valid : Bool
  listing : List String
deriving DecidableEq, Repr

/-- Python `str.lower()`. -/
def strLower (s : String) : String := ⟨s.data.map Char.toLower⟩

/-- Python `str.endswith(suffix)`. -/
def strEndsWith (s suff : String) : Bool := suff.data.isSuffixOf s.data

/-- Python `str.split(",")` on the character list: splitting on every
comma, keeping empty tokens, `[""]` for the empty string. -/
def splitCommaChars : List Char → List (List Char)
  | [] => [[]]
  | c :: cs =>
    if c = ',' then [] :: splitCommaChars cs
    else
      match splitCommaChars cs with
      | t :: ts => (c :: t) :: ts
      | [] => [[c]]

def trimChars (l : List Char) : List Char :=
  ((l.dropWhile Char.isWhitespace).reverse.dropWhile Char.isWhitespace).reverse

/-- Python `str.strip()`: remove leading and trailing whitespace. -/
def pyStrip (s : String) : String := ⟨trimChars s.data⟩

/-- Python `str.split(",")`. -/
def pySplitComma (s : String) : List String := (splitCommaChars s.data).map (fun l => ⟨l⟩)

/-- The extension allow-list check of scan_directory (line 109):
`filename.lower().endswith(('.jpg', '.jpeg', '.png', '.gif'))`. -/
def isImageFile (filename : String) : Bool :=
  let l := strLower filename
  strEndsWith l ".jpg" || strEndsWith l ".jpeg" || strEndsWith l ".png" || strEndsWith l ".gif"

/-- `os.path.join(directory_path, filename)`. -/
def joinPath (dir name : String) : String := dir ++ "/" ++ name

/-- Python dict lookup on the results dict (keys are unique in a dict,
so first match is the match). -/
def dictGet (d : List (String × Val)) (key : String) : Option Val :=
  (d.find? (fun kv => kv.1 == key)).map (fun kv => kv.2)

/-- `existing_photo_map.get(filename)` where the map is the dict
comprehension `{photo['filename']: photo for photo in photos}` — the
last row with a given filename wins. -/
def photoMapLookup (photos : List Photo) (name : String) : Option Photo :=
  photos.reverse.find? (fun p => p.filename == name)

/-- The partition test of scan_directory (line 127):
`existing_photo and existing_photo['is_completed'] == 1`. -/
def isKnownComplete : Option Photo → Bool
  | some p => p.is_completed == 1
  | none => false

/-- One entry of the candidate lists built in Step 2: the
`(filename, fullpath, existing_photo)` triple. -/
structure Candidate where
  filename : String
  fullpath : String
  existing : Option Photo
deriving DecidableEq, Repr

/-- Accumulator of the per-candidate loop (Step 4): the catalog plus the
`processed_images` and `duplicates_found` counters. `failed` counts the
candidates that landed in the `except` handler and `events` records the
external calls made; both are instrumentation for stating properties and
correspond to no stored variable. -/
structure LoopSt where
  catalog : Catalog
  processed : Nat
  duplicates : Nat
  failed : Nat
  events : List Event
deriving DecidableEq, Repr

/-- `BatchScanner._copy_photo_metadata_and_tags`: read the source's
metadata, delete the target's, re-insert, then the same for tags.
`storeFault` injects the store raising at the first repository call;
the function catches it and returns False, leaving the catalog as it
was. -/
def copy_photo_metadata_and_tags (c : Catalog) (source_photo_id target_photo_id : Nat)
    (storeFault : Bool) : Catalog × Bool :=
  if storeFault then (c, false)
  else
    let source_metadata := get_photo_metadata c source_photo_id
    let c := delete_photo_metadata c target_photo_id
    let c := source_metadata.foldl
      (fun c item => (add_metadata c target_photo_id item.key item.value).1) c
    let source_tags := get_photo_tags c source_photo_id
    let c := delete_photo_tags c target_photo_id
    let c := source_tags.foldl
      (fun c item => (add_tag c target_photo_id item.tag).1) c
    (c, true)

/-- The six keys stored as first-class photo columns and excluded from
the metadata table (line 238). -/
def coreKeys : List String := ["filesize", "md5", "width", "height", "month", "year"]

/-- `tag = keyword.strip(); if tag:` applied to `q2.split(",")`. -/
def keywordTags (s : String) : List String :=
  ((pySplitComma s).map pyStrip).filter (fun t => t != "")

/-- The `except` handler of the per-candidate loop (lines 254-260): mark
the existing row incomplete, or insert a fresh incomplete row. -/
def exceptHandler (folder_id : Nat) (acc : LoopSt) (cand : Candidate) : LoopSt :=
  let c := match cand.existing with
    | some ex => update_photo acc.catalog ex.id { is_completed := some 0 }
    | none => (add_photo acc.catalog folder_id cand.fullpath cand.filename 0
        none none none none none none).1
  { acc with catalog := c, failed := acc.failed + 1 }

/-- The `try` block of the per-candidate loop (lines 200-260): invoke
`process_single_image`, write the photo row complete with the extracted
columns, replace its metadata and tags. Any exception (a failed
inference, or `image_results["q2"].split` on a non-string) falls to
`exceptHandler`, keeping the writes already made. -/
def inferencePath (env : ScanEnv) (folder_id : Nat) (acc : LoopSt) (cand : Candidate) :
    LoopSt :=
  let acc := { acc with events := acc.events ++ [Event.inferCall cand.fullpath] }
  match env.infer cand.fullpath with
  | .error _ => exceptHandler folder_id acc cand
  | .ok image_results =>
    let fsize := (dictGet image_results "filesize").bind Val.asNat
    let fmd5 := (dictGet image_results "md5").bind Val.asStr
    let fwidth := (dictGet image_results "width").bind Val.asNat
    let fheight := (dictGet image_results "height").bind Val.asNat
    let fmonth := (dictGet image_results "month").bind Val.asNat
    let fyear := (dictGet image_results "year").bind Val.asNat
    let (c1, photo_id) :=
      match cand.existing with
      | some ex =>
        (update_photo acc.catalog ex.id
          { is_completed := some 1, filesize := some fsize, md5 := some fmd5,
            width := some fwidth, height := some fheight, month := some fmonth,
            year := some fyear }, ex.id)
      | none =>
        add_photo acc.catalog folder_id cand.fullpath cand.filename 1
          fsize fmd5 fwidth fheight fmonth fyear
    let c2 := delete_photo_metadata c1 photo_id
    let c3 := delete_photo_tags c2 photo_id
    let c4 := image_results.foldl
      (fun c kv => if coreKeys.contains kv.1 then c
                   else (add_metadata c photo_id kv.1 kv.2).1) c3
    match dictGet image_results "q2" with
    | some (Val.str s) =>
      let c5 := (keywordTags s).foldl (fun c t => (add_tag c photo_id t).1) c4
      { acc with catalog := c5, processed := acc.processed + 1 }
    | some (Val.nat _) =>
      exceptHandler folder_id { acc with catalog := c4 } cand
    | none =>
      { acc with catalog := c4, processed := acc.processed + 1 }

/-- One iteration of the Step 4 loop (lines 144-260). The fingerprint
read (getsize + md5, lines 148-156) sits OUTSIDE the try block: its
failure propagates and aborts the whole scan (`.error`). A found
duplicate takes the copy branch; otherwise the candidate goes through
`inferencePath`. -/
def candidateStep (env : ScanEnv) (folder_id : Nat) (acc : LoopSt) (cand : Candidate) :
    Except String LoopSt :=
  match env.fingerprint cand.fullpath with
  | .error e => .error e
  | .ok (file_size, md5_value) =>
    let acc := { acc with events := acc.events ++ [Event.fingerprintCall cand.fullpath] }
    match get_photo_by_filesize_and_md5 acc.catalog file_size md5_value with
    | some dup =>
      let differs : Bool := match cand.existing with
        | some ex => dup.id != ex.id
        | none => true
      if differs then
        let (c1, photo_id) :=
          match cand.existing with
          | some ex =>
            (update_photo acc.catalog ex.id
              { is_completed := some 1, filesize := some (some file_size),
                md5 := some (some md5_value), width := some dup.width,
                height := some dup.height, month := some dup.month,
                year := some dup.year }, ex.id)
          | none =>
            add_photo acc.catalog folder_id cand.fullpath cand.filename 1
              (some file_size) (some md5_value) dup.width dup.height dup.month dup.year
        let (c2, _ok) :=
          copy_photo_metadata_and_tags c1 dup.id photo_id (env.copyFails cand.fullpath)
        .ok { acc with catalog := c2, duplicates := acc.duplicates + 1 }
      else
        .ok (inferencePath env folder_id acc cand)
    | none =>
      .ok (inferencePath env folder_id acc cand)

/-- The summary dict scan_directory returns on success (lines 262-268). -/
structure ScanSummary where
  directory : String
  total_images : Nat
  processed : Nat
  skipped : Nat
  duplicates : Nat
deriving DecidableEq, Repr

/-- Result of scan_directory: the error dict for an invalid directory,
or the summary dict. -/
inductive ScanResult where
  | invalidDir : String → ScanResult
  | summary : ScanSummary → ScanResult
deriving DecidableEq, Repr

/-- Steps 1-2 of scan_directory (lines 105-130): the extension-filtered
`(filename, fullpath)` list joined against the folder's existing photos,
giving the `(filename, fullpath, existing_photo)` triples. -/
def dirEntriesFor (c0 : Catalog) (folder_id : Nat) (d : DirEntry) : List Candidate :=
  ((d.listing.filter isImageFile).map (fun n => (n, joinPath d.path n))).map
    (fun nf => Candidate.mk nf.1 nf.2
      (photoMapLookup (get_photos_by_folder c0 folder_id) nf.1))

/-- `BatchScanner.scan_directory`. Validation comes first (line 89),
before the model is loaded; then the folder row is found-or-created,
the listing filtered by extension, partitioned against the folder's
existing photos, known-complete files counted as skipped, and the
candidates driven through `candidateStep`. A fingerprint I/O error
aborts the whole call (`.error`). -/
def scan_directory (env : ScanEnv) (st : ScannerState) (d : DirEntry) :
    Except String (ScannerState × List Event × ScanResult) :=
  if !d.valid then
    .ok (st, [], ScanResult.invalidDir d.path)
  else
    let (st1, ev0) := ensure_model_loaded st
    let (c0, folder_id) := add_folder st1.catalog d.path
    let entries := dirEntriesFor c0 folder_id d
    let total_images := entries.length
    let processed_files := entries.filter (fun e => isKnownComplete e.existing)
    let unprocessed_files := entries.filter (fun e => !isKnownComplete e.existing)
    let skipped_images := processed_files.length
    match unprocessed_files.foldlM (candidateStep env folder_id)
        (LoopSt.mk c0 0 0 0 []) with
    | .error e => .error e
    | .ok fin =>
      .ok ({ st1 with catalog := fin.catalog }, ev0 ++ fin.events,
        ScanResult.summary ⟨d.path, total_images, fin.processed,
          skipped_images, fin.duplicates⟩)

/-- A directory tree as `os.walk` sees it: each node is one directory
with its entry (path, validity, listing) and its subdirectories. -/
inductive DirTree where
  | node : DirEntry → List DirTree → DirTree

def DirTree.entry : DirTree → DirEntry
  | .node e _ => e

def DirTree.children : DirTree → List DirTree
  | .node _ cs => cs

mutual

/-- `os.walk(root)` in its default top-down order: the directory itself
first, then the subtrees in listing order (pre-order). -/
def DirTree.walk : DirTree → List DirEntry
  | .node e cs => e :: DirTree.walkAll cs

def DirTree.walkAll : List DirTree → List DirEntry
  | [] => []
  | t :: ts => t.walk ++ DirTree.walkAll ts

end

mutual

/-- All subtrees of a tree (the tree itself included): the directories
reachable from the root. -/
def DirTree.subtrees : DirTree → List DirTree
  | .node e cs => .node e cs :: DirTree.subtreesAll cs

def DirTree.subtreesAll : List DirTree → List DirTree
  | [] => []
  | t :: ts => t.subtrees ++ DirTree.subtreesAll ts

end

/-- The aggregate dict scan_recursive accumulates (line 286): note it
carries no duplicates count. -/
structure RecSummary where
  directories_scanned : Nat
  total_images : Nat
  processed : Nat
  skipped : Nat
deriving DecidableEq, Repr

/-- Result of scan_recursive: the error dict or the aggregate. -/
inductive RecResult where
  | invalidDir : String → RecResult
  | summary : RecSummary → RecResult
deriving DecidableEq, Repr

/-- The per-result contribution to the aggregate: scan_recursive adds a
directory's counts only `if "total_images" in dir_result` etc., so an
error dict contributes nothing. -/
def ScanResult.totalContrib : ScanResult → Nat
  | .summary s => s.total_images
  | .invalidDir _ => 0

def ScanResult.processedContrib : ScanResult → Nat
  | .summary s => s.processed
  | .invalidDir _ => 0

def ScanResult.skippedContrib : ScanResult → Nat
  | .summary s => s.skipped
  | .invalidDir _ => 0

/-- The `for dirpath, ... in os.walk(...)` loop body of scan_recursive
(lines 288-298), folded over the walked directories. -/
def scanDirs (env : ScanEnv) : ScannerState → List DirEntry → RecSummary →
    List Event → Except String (ScannerState × List Event × RecSummary)
  | st, [], acc, ev => .ok (st, ev, acc)
  | st, d :: ds, acc, ev =>
    match scan_directory env st d with
    | .error e => .error e
    | .ok (st', ev', r) =>
      scanDirs env st' ds
        ⟨acc.directories_scanned + 1,
         acc.total_images + r.totalContrib,
         acc.processed + r.processedContrib,
         acc.skipped + r.skippedContrib⟩
        (ev ++ ev')

/-- `BatchScanner.scan_recursive`: note it calls `_ensure_model_loaded`
(line 280) BEFORE validating the root (line 282). -/
def scan_recursive (env : ScanEnv) (st : ScannerState) (t : DirTree) :
    Except String (ScannerState × List Event × RecResult) :=
  let (st1, ev0) := ensure_model_loaded st
  if !(t.entry).valid then
    .ok (st1, ev0, RecResult.invalidDir t.entry.path)
  else
    match scanDirs env st1 t.walk ⟨0, 0, 0, 0⟩ ev0 with
    | .error e => .error e
    | .ok (st2, ev, agg) => .ok (st2, ev, RecResult.summary agg)

/-- The sequence of per-directory results the walk produces, with the
scanner state threaded through: used to state what `scanDirs`
aggregates. -/
def dirResults (env : ScanEnv) : ScannerState → List DirEntry →
    Except String (List ScanResult)
  | _, [] => .ok []
  | st, d :: ds =>
    match scan_directory env st d with
    | .error e => .error e
    | .ok (st', _, r) =>
      match dirResults env st' ds with
      | .error e => .error e
      | .ok rs => .ok (r :: rs)

/-- The tail of `main` in batchscan/__main__.py for the non-recursive
mode: `if "error" in results: print error line; return 1` else print the
counts and return 0. First component: the exit code; second: whether the
error line was printed. -/
def cli_exit_single (r : ScanResult) : Nat × Bool :=
  match r with
  | .invalidDir _ => (1, true)
  | .summary _ => (0, false)

/-- Same for the recursive mode. -/
def cli_exit_recursive (r : RecResult) : Nat × Bool :=
  match r with
  | .invalidDir _ => (1, true)
  | .summary _ => (0, false)

/-- What the filesystem reports about one path to
`PhotoScanner.get_image_metadata`: `os.path.isfile`, `os.path.getsize`,
the chunked md5 of its bytes, and the month/year of
`datetime.fromtimestamp(os.path.getmtime(path))`. `opened` is what
`Image.open` yields when the function has to open the file itself. -/
structure ImageDesc where
  width : Nat
  height : Nat
  exif : Option (List (Nat × String))
deriving DecidableEq, Repr

structure FileDesc where
  isfile : Bool
  filesize : Nat
  md5 : String
  mtimeMonth : Nat
  mtimeYear : Nat
  opened : ImageDesc
deriving DecidableEq, Repr

/-- Dict write (`metadata[key] = value`): replace the (unique) existing
entry for the key if present, else append. -/
def dictSet : List (String × Val) → String → Val → List (String × Val)
  | [], key, value => [(key, value)]
  | kv :: t, key, value =>
    if kv.1 == key then (key, value) :: t else kv :: dictSet t key value

/-- EXIF tag 36867 (DateTimeOriginal) lookup in `exif_data.get(36867)`. -/
def exifLookup (exif : List (Nat × String)) (tag : Nat) : Option String :=
  (exif.find? (fun kv => kv.1 == tag)).map (fun kv => kv.2)

/-- Lines 234-235 of get_image_metadata: use the passed image, else
`Image.open` the path when it is a file. -/
def imageArg (fd : FileDesc) (image : Option ImageDesc) : Option ImageDesc :=
  match image with
  | some i => some i
  | none => if fd.isfile then some fd.opened else none

/-- `PhotoScanner.get_image_metadata(file_path, image)`: builds the
metadata dict — filesize and md5 when the path is a file; width/height
from the image (opened on demand); month/year from the EXIF
DateTimeOriginal when present and `strptime` parses it (`parseDate` is
the `datetime.strptime(date_str, "%Y:%m:%d %H:%M:%S")` oracle, `none`
meaning it raised ValueError); otherwise month/year from the file's
modification time. -/
def get_image_metadata (fd : FileDesc) (image : Option ImageDesc)
    (parseDate : String → Option (Nat × Nat)) : List (String × Val) :=
  let m : List (String × Val) := []
  let m := if fd.isfile then
      dictSet (dictSet m "filesize" (Val.nat fd.filesize)) "md5" (Val.str fd.md5)
    else m
  let img : Option ImageDesc := imageArg fd image
  let m :=
    match img with
    | none => m
    | some i =>
      let m := dictSet (dictSet m "width" (Val.nat i.width)) "height" (Val.nat i.height)
      match i.exif with
      | none => m
      | some exif_data =>
        match exifLookup exif_data 36867 with
        | none => m
        | some date_str =>
          match parseDate date_str with
          | some dt => dictSet (dictSet m "month" (Val.nat dt.1)) "year" (Val.nat dt.2)
          | none => m
  if (dictGet m "month").isNone || (dictGet m "year").isNone then
    if fd.isfile then
      dictSet (dictSet m "month" (Val.nat fd.mtimeMonth)) "year" (Val.nat fd.mtimeYear)
    else m
  else m

/- ------------------------------------------------------------------ -/
/- Helper lemmas about the catalog operations.                         -/
/- ------------------------------------------------------------------ -/

/-- Projection of a metadata row to its (key, value) content. -/
def mdProj (r : MetadataRow) : String × Val := (r.key, r.value)

/-- Projection of a tag row to its label. -/
def tagProj (t : TagRow) : String := t.tag

@[simp] theorem applyUpdates_id (p : Photo) (u : PhotoUpdates) :
    (applyUpdates p u).id = p.id := rfl

@[simp] theorem add_metadata_fst_photos (c : Catalog) (pid : Nat) (k : String) (v : Val) :
    ((add_metadata c pid k v).1).photos = c.photos := rfl

@[simp] theorem add_metadata_fst_tags (c : Catalog) (pid : Nat) (k : String) (v : Val) :
    ((add_metadata c pid k v).1).tags = c.tags := rfl

@[simp] theorem add_metadata_fst_folders (c : Catalog) (pid : Nat) (k : String) (v : Val) :
    ((add_metadata c pid k v).1).folders = c.folders := rfl

@[simp] theorem add_metadata_fst_nextPhotoId (c : Catalog) (pid : Nat) (k : String) (v : Val) :
    ((add_metadata c pid k v).1).nextPhotoId = c.nextPhotoId := rfl

@[simp] theorem add_tag_fst_photos (c : Catalog) (pid : Nat) (t : String) :
    ((add_tag c pid t).1).photos = c.photos := rfl

@[simp] theorem add_tag_fst_metadata (c : Catalog) (pid : Nat) (t : String) :
    ((add_tag c pid t).1).metadata = c.metadata := rfl

@[simp] theorem add_tag_fst_folders (c : Catalog) (pid : Nat) (t : String) :
    ((add_tag c pid t).1).folders = c.folders := rfl

@[simp] theorem add_tag_fst_nextPhotoId (c : Catalog) (pid : Nat) (t : String) :
    ((add_tag c pid t).1).nextPhotoId = c.nextPhotoId := rfl

@[simp] theorem delete_photo_metadata_photos (c : Catalog) (pid : Nat) :
    (delete_photo_metadata c pid).photos = c.photos := rfl

@[simp] theorem delete_photo_metadata_tags (c : Catalog) (pid : Nat) :
    (delete_photo_metadata c pid).tags = c.tags := rfl

@[simp] theorem delete_photo_metadata_folders (c : Catalog) (pid : Nat) :
    (delete_photo_metadata c pid).folders = c.folders := rfl

@[simp] theorem delete_photo_metadata_nextPhotoId (c : Catalog) (pid : Nat) :
    (delete_photo_metadata c pid).nextPhotoId = c.nextPhotoId := rfl

@[simp] theorem delete_photo_tags_photos (c : Catalog) (pid : Nat) :
    (delete_photo_tags c pid).photos = c.photos := rfl

@[simp] theorem delete_photo_tags_metadata (c : Catalog) (pid : Nat) :
    (delete_photo_tags c pid).metadata = c.metadata := rfl

@[simp] theorem delete_photo_tags_folders (c : Catalog) (pid : Nat) :
    (delete_photo_tags c pid).folders = c.folders := rfl

@[simp] theorem delete_photo_tags_nextPhotoId (c : Catalog) (pid : Nat) :
    (delete_photo_tags c pid).nextPhotoId = c.nextPhotoId := rfl

@[simp] theorem update_photo_metadata (c : Catalog) (i : Nat) (u : PhotoUpdates) :
    (update_photo c i u).metadata = c.metadata := rfl

@[simp] theorem update_photo_tags (c : Catalog) (i : Nat) (u : PhotoUpdates) :
    (update_photo c i u).tags = c.tags := rfl

@[simp] theorem update_photo_folders (c : Catalog) (i : Nat) (u : PhotoUpdates) :
    (update_photo c i u).folders = c.folders := rfl

@[simp] theorem update_photo_nextPhotoId (c : Catalog) (i : Nat) (u : PhotoUpdates) :
    (update_photo c i u).nextPhotoId = c.nextPhotoId := rfl

@[simp] theorem add_photo_fst_metadata (c : Catalog) (fid : Nat) (fp fn : String)
    (ic : Nat) (fs : Option Nat) (m5 : Option String) (w h mo yr : Option Nat) :
    ((add_photo c fid fp fn ic fs m5 w h mo yr).1).metadata = c.metadata := rfl

@[simp] theorem add_photo_fst_tags (c : Catalog) (fid : Nat) (fp fn : String)
    (ic : Nat) (fs : Option Nat) (m5 : Option String) (w h mo yr : Option Nat) :
    ((add_photo c fid fp fn ic fs m5 w h mo yr).1).tags = c.tags := rfl

@[simp] theorem add_photo_fst_folders (c : Catalog) (fid : Nat) (fp fn : String)
    (ic : Nat) (fs : Option Nat) (m5 : Option String) (w h mo yr : Option Nat) :
    ((add_photo c fid fp fn ic fs m5 w h mo yr).1).folders = c.folders := rfl

theorem add_photo_fst_photos (c : Catalog) (fid : Nat) (fp fn : String)
    (ic : Nat) (fs : Option Nat) (m5 : Option String) (w h mo yr : Option Nat) :
    ((add_photo c fid fp fn ic fs m5 w h mo yr).1).photos =
      c.photos ++ [⟨c.nextPhotoId, fid, fp, fn, ic, fs, m5, w, h, mo, yr⟩] := rfl

theorem add_photo_snd (c : Catalog) (fid : Nat) (fp fn : String)
    (ic : Nat) (fs : Option Nat) (m5 : Option String) (w h mo yr : Option Nat) :
    (add_photo c fid fp fn ic fs m5 w h mo yr).2 = c.nextPhotoId := rfl

@[simp] theorem get_photo_metadata_update_photo (c : Catalog) (i : Nat) (u : PhotoUpdates) (x : Nat) :
    get_photo_metadata (update_photo c i u) x = get_photo_metadata c x := rfl

@[simp] theorem get_photo_metadata_add_photo (c : Catalog) (fid : Nat) (fp fn : String)
    (ic : Nat) (fs : Option Nat) (m5 : Option String) (w h mo yr : Option Nat) (x : Nat) :
    get_photo_metadata ((add_photo c fid fp fn ic fs m5 w h mo yr).1) x =
      get_photo_metadata c x := rfl

@[simp] theorem get_photo_tags_update_photo (c : Catalog) (i : Nat) (u : PhotoUpdates) (x : Nat) :
    get_photo_tags (update_photo c i u) x = get_photo_tags c x := rfl

@[simp] theorem get_photo_tags_add_photo (c : Catalog) (fid : Nat) (fp fn : String)
    (ic : Nat) (fs : Option Nat) (m5 : Option String) (w h mo yr : Option Nat) (x : Nat) :
    get_photo_tags ((add_photo c fid fp fn ic fs m5 w h mo yr).1) x =
      get_photo_tags c x := rfl

@[simp] theorem get_photo_metadata_delete_photo_tags (c : Catalog) (pid x : Nat) :
    get_photo_metadata (delete_photo_tags c pid) x = get_photo_metadata c x := rfl

@[simp] theorem get_photo_tags_delete_photo_metadata (c : Catalog) (pid x : Nat) :
    get_photo_tags (delete_photo_metadata c pid) x = get_photo_tags c x := rfl

@[simp] theorem get_photo_metadata_add_metadata_self (c : Catalog) (pid : Nat) (k : String) (v : Val) :
    get_photo_metadata ((add_metadata c pid k v).1) pid =
      get_photo_metadata c pid ++ [⟨c.nextMetadataId, pid, k, v⟩] := by
  simp [get_photo_metadata, add_metadata, List.filter_append]

theorem get_photo_metadata_add_metadata_other (c : Catalog) (pid : Nat) (k : String) (v : Val)
    (x : Nat) (h : x ≠ pid) :
    get_photo_metadata ((add_metadata c pid k v).1) x = get_photo_metadata c x := by
  simp [get_photo_metadata, add_metadata, List.filter_append, Ne.symm h]

@[simp] theorem get_photo_tags_add_tag_self (c : Catalog) (pid : Nat) (t : String) :
    get_photo_tags ((add_tag c pid t).1) pid =
      get_photo_tags c pid ++ [⟨c.nextTagId, pid, t⟩] := by
  simp [get_photo_tags, add_tag, List.filter_append]

theorem get_photo_tags_add_tag_other (c : Catalog) (pid : Nat) (t : String)
    (x : Nat) (h : x ≠ pid) :
    get_photo_tags ((add_tag c pid t).1) x = get_photo_tags c x := by
  simp [get_photo_tags, add_tag, List.filter_append, Ne.symm h]

@[simp] theorem get_photo_metadata_delete_self (c : Catalog) (pid : Nat) :
    get_photo_metadata (delete_photo_metadata c pid) pid = [] := by
  simp [get_photo_metadata, delete_photo_metadata, List.filter_filter]

theorem get_photo_metadata_delete_other (c : Catalog) (pid x : Nat) (h : x ≠ pid) :
    get_photo_metadata (delete_photo_metadata c pid) x = get_photo_metadata c x := by
  simp only [get_photo_metadata, delete_photo_metadata, List.filter_filter]
  congr 1
  funext r
  by_cases hr : r.photo_id = x
  · subst hr
    simp [bne, h]
  · simp [hr]

@[simp] theorem get_photo_tags_delete_self (c : Catalog) (pid : Nat) :
    get_photo_tags (delete_photo_tags c pid) pid = [] := by
  simp [get_photo_tags, delete_photo_tags, List.filter_filter]

theorem get_photo_tags_delete_other (c : Catalog) (pid x : Nat) (h : x ≠ pid) :
    get_photo_tags (delete_photo_tags c pid) x = get_photo_tags c x := by
  simp only [get_photo_tags, delete_photo_tags, List.filter_filter]
  congr 1
  funext r
  by_cases hr : r.photo_id = x
  · subst hr
    simp [bne, h]
  · simp [hr]

/- Fold lemmas: the metadata-insertion loop of the inference path. -/

theorem foldl_insert_metadata_photos (items : List (String × Val)) (c : Catalog) (pid : Nat) :
    (items.foldl (fun c kv => if coreKeys.contains kv.1 then c
      else (add_metadata c pid kv.1 kv.2).1) c).photos = c.photos := by
  induction items generalizing c with
  | nil => rfl
  | cons kv t ih =>
    simp only [List.foldl_cons]
    by_cases hk : coreKeys.contains kv.1
    · simp only [hk, if_true]
      exact ih c
    · simp only [hk, if_false]
      rw [ih]
      rfl

theorem foldl_insert_metadata_tags (items : List (String × Val)) (c : Catalog) (pid : Nat) :
    (items.foldl (fun c kv => if coreKeys.contains kv.1 then c
      else (add_metadata c pid kv.1 kv.2).1) c).tags = c.tags := by
  induction items generalizing c with
  | nil => rfl
  | cons kv t ih =>
    simp only [List.foldl_cons]
    by_cases hk : coreKeys.contains kv.1
    · simp only [hk, if_true]
      exact ih c
    · simp only [hk, if_false]
      rw [ih]
      rfl

theorem foldl_insert_metadata_folders (items : List (String × Val)) (c : Catalog) (pid : Nat) :
    (items.foldl (fun c kv => if coreKeys.contains kv.1 then c
      else (add_metadata c pid kv.1 kv.2).1) c).folders = c.folders := by
  induction items generalizing c with
  | nil => rfl
  | cons kv t ih =>
    simp only [List.foldl_cons]
    by_cases hk : coreKeys.contains kv.1
    · simp only [hk, if_true]
      exact ih c
    · simp only [hk, if_false]
      rw [ih]
      rfl

theorem foldl_insert_metadata_nextPhotoId (items : List (String × Val)) (c : Catalog) (pid : Nat) :
    (items.foldl (fun c kv => if coreKeys.contains kv.1 then c
      else (add_metadata c pid kv.1 kv.2).1) c).nextPhotoId = c.nextPhotoId := by
  induction items generalizing c with
  | nil => rfl
  | cons kv t ih =>
    simp only [List.foldl_cons]
    by_cases hk : coreKeys.contains kv.1
    · simp only [hk, if_true]
      exact ih c
    · simp only [hk, if_false]
      rw [ih]
      rfl

theorem foldl_insert_metadata_get_self (items : List (String × Val)) (c : Catalog) (pid : Nat) :
    (get_photo_metadata (items.foldl (fun c kv => if coreKeys.contains kv.1 then c
      else (add_metadata c pid kv.1 kv.2).1) c) pid).map mdProj =
    (get_photo_metadata c pid).map mdProj ++
      items.filter (fun kv => !(coreKeys.contains kv.1)) := by
  induction items generalizing c with
  | nil => simp
  | cons kv t ih =>
    simp only [List.foldl_cons, List.filter_cons]
    by_cases hk : coreKeys.contains kv.1
    · simp only [hk, if_true, Bool.not_true]
      rw [ih c]
      simp
    · simp only [hk, if_false, Bool.not_false]
      rw [ih]
      simp [mdProj]

theorem foldl_insert_metadata_get_other (items : List (String × Val)) (c : Catalog)
    (pid x : Nat) (h : x ≠ pid) :
    get_photo_metadata (items.foldl (fun c kv => if coreKeys.contains kv.1 then c
      else (add_metadata c pid kv.1 kv.2).1) c) x = get_photo_metadata c x := by
  induction items generalizing c with
  | nil => rfl
  | cons kv t ih =>
    simp only [List.foldl_cons]
    by_cases hk : coreKeys.contains kv.1
    · simp only [hk, if_true]
      exact ih c
    · simp only [hk, if_false]
      rw [ih]
      exact get_photo_metadata_add_metadata_other c pid kv.1 kv.2 x h

/- Fold lemmas: the keyword-tag insertion loop of the inference path. -/

theorem foldl_add_tag_photos (ts : List String) (c : Catalog) (pid : Nat) :
    (ts.foldl (fun c t => (add_tag c pid t).1) c).photos = c.photos := by
  induction ts generalizing c with
  | nil => rfl
  | cons t ts ih =>
    simp only [List.foldl_cons]
    rw [ih]
    rfl

theorem foldl_add_tag_metadata (ts : List String) (c : Catalog) (pid : Nat) :
    (ts.foldl (fun c t => (add_tag c pid t).1) c).metadata = c.metadata := by
  induction ts generalizing c with
  | nil => rfl
  | cons t ts ih =>
    simp only [List.foldl_cons]
    rw [ih]
    rfl

theorem foldl_add_tag_folders (ts : List String) (c : Catalog) (pid : Nat) :
    (ts.foldl (fun c t => (add_tag c pid t).1) c).folders = c.folders := by
  induction ts generalizing c with
  | nil => rfl
  | cons t ts ih =>
    simp only [List.foldl_cons]
    rw [ih]
    rfl

theorem foldl_add_tag_nextPhotoId (ts : List String) (c : Catalog) (pid : Nat) :
    (ts.foldl (fun c t => (add_tag c pid t).1) c).nextPhotoId = c.nextPhotoId := by
  induction ts generalizing c with
  | nil => rfl
  | cons t ts ih =>
    simp only [List.foldl_cons]
    rw [ih]
    rfl

theorem foldl_add_tag_get_self (ts : List String) (c : Catalog) (pid : Nat) :
    (get_photo_tags (ts.foldl (fun c t => (add_tag c pid t).1) c) pid).map tagProj =
    (get_photo_tags c pid).map tagProj ++ ts := by
  induction ts generalizing c with
  | nil => simp
  | cons t ts ih =>
    simp only [List.foldl_cons]
    rw [ih]
    simp [tagProj]

theorem foldl_add_tag_get_other (ts : List String) (c : Catalog) (pid x : Nat) (h : x ≠ pid) :
    get_photo_tags (ts.foldl (fun c t => (add_tag c pid t).1) c) x = get_photo_tags c x := by
  induction ts generalizing c with
  | nil => rfl
  | cons t ts ih =>
    simp only [List.foldl_cons]
    rw [ih]
    exact get_photo_tags_add_tag_other c pid t x h

theorem foldl_add_tag_get_metadata (ts : List String) (c : Catalog) (pid x : Nat) :
    get_photo_metadata (ts.foldl (fun c t => (add_tag c pid t).1) c) x =
      get_photo_metadata c x := by
  unfold get_photo_metadata
  rw [foldl_add_tag_metadata]

/- Fold lemmas: the copy loops of `_copy_photo_metadata_and_tags`. -/

theorem foldl_copy_metadata_photos (rows : List MetadataRow) (c : Catalog) (pid : Nat) :
    (rows.foldl (fun c item => (add_metadata c pid item.key item.value).1) c).photos =
      c.photos := by
  induction rows generalizing c with
  | nil => rfl
  | cons r rs ih =>
    simp only [List.foldl_cons]
    rw [ih]
    rfl

theorem foldl_copy_metadata_tags (rows : List MetadataRow) (c : Catalog) (pid : Nat) :
    (rows.foldl (fun c item => (add_metadata c pid item.key item.value).1) c).tags =
      c.tags := by
  induction rows generalizing c with
  | nil => rfl
  | cons r rs ih =>
    simp only [List.foldl_cons]
    rw [ih]
    rfl

theorem foldl_copy_metadata_get_self (rows : List MetadataRow) (c : Catalog) (pid : Nat) :
    (get_photo_metadata (rows.foldl
        (fun c item => (add_metadata c pid item.key item.value).1) c) pid).map mdProj =
    (get_photo_metadata c pid).map mdProj ++ rows.map mdProj := by
  induction rows generalizing c with
  | nil => simp
  | cons r rs ih =>
    simp only [List.foldl_cons, List.map_cons]
    rw [ih]
    simp [mdProj]

theorem foldl_copy_metadata_get_other (rows : List MetadataRow) (c : Catalog)
    (pid x : Nat) (h : x ≠ pid) :
    get_photo_metadata (rows.foldl
        (fun c item => (add_metadata c pid item.key item.value).1) c) x =
      get_photo_metadata c x := by
  induction rows generalizing c with
  | nil => rfl
  | cons r rs ih =>
    simp only [List.foldl_cons]
    rw [ih]
    exact get_photo_metadata_add_metadata_other c pid r.key r.value x h

theorem foldl_copy_tags_photos (rows : List TagRow) (c : Catalog) (pid : Nat) :
    (rows.foldl (fun c item => (add_tag c pid item.tag).1) c).photos = c.photos := by
  induction rows generalizing c with
  | nil => rfl
  | cons r rs ih =>
    simp only [List.foldl_cons]
    rw [ih]
    rfl

theorem foldl_copy_tags_metadata (rows : List TagRow) (c : Catalog) (pid : Nat) :
    (rows.foldl (fun c item => (add_tag c pid item.tag).1) c).metadata = c.metadata := by
  induction rows generalizing c with
  | nil => rfl
  | cons r rs ih =>
    simp only [List.foldl_cons]
    rw [ih]
    rfl

theorem foldl_copy_tags_get_self (rows : List TagRow) (c : Catalog) (pid : Nat) :
    (get_photo_tags (rows.foldl
        (fun c item => (add_tag c pid item.tag).1) c) pid).map tagProj =
    (get_photo_tags c pid).map tagProj ++ rows.map tagProj := by
  induction rows generalizing c with
  | nil => simp
  | cons r rs ih =>
    simp only [List.foldl_cons, List.map_cons]
    rw [ih]
    simp [tagProj]

theorem foldl_copy_tags_get_other (rows : List TagRow) (c : Catalog)
    (pid x : Nat) (h : x ≠ pid) :
    get_photo_tags (rows.foldl
        (fun c item => (add_tag c pid item.tag).1) c) x = get_photo_tags c x := by
  induction rows generalizing c with
  | nil => rfl
  | cons r rs ih =>
    simp only [List.foldl_cons]
    rw [ih]
    exact get_photo_tags_add_tag_other c pid r.tag x h

/- Lemmas about the duplicate lookup. -/

theorem gpbfm_mem {c : Catalog} {fs : Nat} {m5 : String} {p : Photo}
    (h : get_photo_by_filesize_and_md5 c fs m5 = some p) : p ∈ c.photos := by
  unfold get_photo_by_filesize_and_md5 at h
  exact List.mem_of_mem_filter (List.mem_of_mem_head? h)

theorem gpbfm_complete {c : Catalog} {fs : Nat} {m5 : String} {p : Photo}
    (h : get_photo_by_filesize_and_md5 c fs m5 = some p) :
    p.is_completed = 1 ∧ p.filesize = some fs ∧ p.md5 = some m5 := by
  unfold get_photo_by_filesize_and_md5 at h
  have hmem : p ∈ c.photos.filter (fun p =>
      p.filesize == some fs && p.md5 == some m5 && p.is_completed == 1) := by
    exact List.mem_of_mem_head? h
  have := List.of_mem_filter hmem
  simp only [Bool.and_eq_true, beq_iff_eq] at this
  exact ⟨this.2, this.1.1, this.1.2⟩

theorem gpbfm_none_of_forall {c : Catalog} {fs : Nat} {m5 : String}
    (h : ∀ p ∈ c.photos,
      ¬(p.filesize = some fs ∧ p.md5 = some m5 ∧ p.is_completed = 1)) :
    get_photo_by_filesize_and_md5 c fs m5 = none := by
  unfold get_photo_by_filesize_and_md5
  rw [List.head?_eq_none_iff]
  rw [List.filter_eq_nil_iff]
  intro p hp
  intro hc
  simp only [Bool.and_eq_true, beq_iff_eq] at hc
  exact h p hp ⟨hc.1.1, hc.1.2, hc.2⟩

/- Lemmas about `get_photo_by_id` after photo writes. -/

theorem find?_map_update (i : Nat) (u : PhotoUpdates) :
    ∀ (l : List Photo) (q : Photo), l.find? (fun p => p.id == i) = some q →
    (l.map (fun p => if p.id == i then applyUpdates p u else p)).find?
      (fun p => p.id == i) = some (applyUpdates q u)
  | [], q, h => by simp at h
  | p :: ps, q, h => by
    by_cases hp : p.id = i
    · rw [List.find?_cons_of_pos _ (by simp [hp])] at h
      injection h with h
      subst h
      simp only [List.map_cons, if_pos (by simp [hp] : (p.id == i) = true)]
      rw [List.find?_cons_of_pos _ (by simp [hp])]
    · rw [List.find?_cons_of_neg _ (by simp [hp])] at h
      simp only [List.map_cons, if_neg (by simp [hp] : ¬(p.id == i) = true)]
      rw [List.find?_cons_of_neg _ (by simp [hp])]
      exact find?_map_update i u ps q h

theorem get_photo_by_id_update_photo {c : Catalog} {i : Nat} (u : PhotoUpdates)
    {q : Photo} (h : c.photos.find? (fun p => p.id == i) = some q) :
    get_photo_by_id (update_photo c i u) i = some (applyUpdates q u) := by
  unfold get_photo_by_id update_photo
  exact find?_map_update i u c.photos q h

theorem get_photo_by_id_add_photo {c : Catalog} (fid : Nat) (fp fn : String)
    (ic : Nat) (fs : Option Nat) (m5 : Option String) (w h mo yr : Option Nat)
    (hwf : ∀ p ∈ c.photos, p.id < c.nextPhotoId) :
    get_photo_by_id ((add_photo c fid fp fn ic fs m5 w h mo yr).1) c.nextPhotoId =
      some ⟨c.nextPhotoId, fid, fp, fn, ic, fs, m5, w, h, mo, yr⟩ := by
  unfold get_photo_by_id
  rw [add_photo_fst_photos]
  rw [List.find?_append]
  have h1 : c.photos.find? (fun p => p.id == c.nextPhotoId) = none := by
    rw [List.find?_eq_none]
    intro p hp
    simp only [beq_iff_eq]
    exact Nat.ne_of_lt (hwf p hp)
  rw [h1]
  simp

theorem find?_map_update_other (i : Nat) (u : PhotoUpdates) (x : Nat) (hx : x ≠ i) :
    ∀ (l : List Photo),
    (l.map (fun p => if p.id == i then applyUpdates p u else p)).find?
      (fun p => p.id == x) = l.find? (fun p => p.id == x)
  | [] => rfl
  | p :: ps => by
    by_cases hp : p.id = i
    · simp only [List.map_cons, if_pos (by simp [hp] : (p.id == i) = true)]
      rw [List.find?_cons_of_neg _
          (by simp [applyUpdates, hp]; exact fun hh => hx hh.symm),
        List.find?_cons_of_neg _ (by simp [hp]; exact fun hh => hx hh.symm)]
      exact find?_map_update_other i u x hx ps
    · simp only [List.map_cons, if_neg (by simp [hp] : ¬(p.id == i) = true)]
      by_cases hpx : p.id = x
      · rw [List.find?_cons_of_pos _ (by simp [hpx]),
          List.find?_cons_of_pos _ (by simp [hpx])]
      · rw [List.find?_cons_of_neg _ (by simp [hpx]),
          List.find?_cons_of_neg _ (by simp [hpx])]
        exact find?_map_update_other i u x hx ps

theorem get_photo_by_id_preserved_update {c : Catalog} {i : Nat} (u : PhotoUpdates)
    (x : Nat) (hx : x ≠ i) :
    get_photo_by_id (update_photo c i u) x = get_photo_by_id c x := by
  unfold get_photo_by_id update_photo
  exact find?_map_update_other i u x hx c.photos

theorem get_photo_by_id_preserved_add {c : Catalog} (fid : Nat) (fp fn : String)
    (ic : Nat) (fs : Option Nat) (m5 : Option String) (w h mo yr : Option Nat)
    (x : Nat) (hx : x ≠ c.nextPhotoId) :
    get_photo_by_id ((add_photo c fid fp fn ic fs m5 w h mo yr).1) x =
      get_photo_by_id c x := by
  unfold get_photo_by_id
  rw [add_photo_fst_photos, List.find?_append]
  have h2 : ([⟨c.nextPhotoId, fid, fp, fn, ic, fs, m5, w, h, mo, yr⟩] :
      List Photo).find? (fun p => p.id == x) = none := by
    simp [Ne.symm hx]
  rw [h2]
  cases hc : c.photos.find? (fun p => p.id == x) <;> simp [hc]

/- Characterization of the per-candidate loop: events and counters. -/

theorem exceptHandler_events (fid : Nat) (a : LoopSt) (cand : Candidate) :
    (exceptHandler fid a cand).events = a.events := rfl

theorem exceptHandler_processed (fid : Nat) (a : LoopSt) (cand : Candidate) :
    (exceptHandler fid a cand).processed = a.processed := rfl

theorem exceptHandler_duplicates (fid : Nat) (a : LoopSt) (cand : Candidate) :
    (exceptHandler fid a cand).duplicates = a.duplicates := rfl

theorem exceptHandler_failed (fid : Nat) (a : LoopSt) (cand : Candidate) :
    (exceptHandler fid a cand).failed = a.failed + 1 := rfl

theorem inferencePath_events (env : ScanEnv) (fid : Nat) (acc : LoopSt) (cand : Candidate) :
    (inferencePath env fid acc cand).events =
      acc.events ++ [Event.inferCall cand.fullpath] := by
  unfold inferencePath
  cases env.infer cand.fullpath with
  | error e => rfl
  | ok r =>
    simp only
    cases dictGet r "q2" with
    | none => rfl
    | some v => cases v <;> rfl

theorem inferencePath_duplicates (env : ScanEnv) (fid : Nat) (acc : LoopSt) (cand : Candidate) :
    (inferencePath env fid acc cand).duplicates = acc.duplicates := by
  unfold inferencePath
  cases env.infer cand.fullpath with
  | error e => rfl
  | ok r =>
    simp only
    cases dictGet r "q2" with
    | none => rfl
    | some v => cases v <;> rfl

theorem inferencePath_count (env : ScanEnv) (fid : Nat) (acc : LoopSt) (cand : Candidate) :
    (inferencePath env fid acc cand).processed + (inferencePath env fid acc cand).failed =
      acc.processed + acc.failed + 1 := by
  unfold inferencePath
  cases env.infer cand.fullpath with
  | error e => simp [exceptHandler_processed, exceptHandler_failed]; omega
  | ok r =>
    simp only
    cases dictGet r "q2" with
    | none => simp; omega
    | some v =>
      cases v with
      | nat n => simp [exceptHandler_processed, exceptHandler_failed]; omega
      | str s => simp; omega

theorem candidateStep_ok_counts {env : ScanEnv} {fid : Nat} {acc : LoopSt}
    {cand : Candidate} {acc' : LoopSt}
    (h : candidateStep env fid acc cand = .ok acc') :
    acc'.processed + acc'.duplicates + acc'.failed =
      acc.processed + acc.duplicates + acc.failed + 1 := by
  unfold candidateStep at h
  cases hf : env.fingerprint cand.fullpath with
  | error e =>
    rw [hf] at h
    exact absurd h (by simp)
  | ok pr =>
    obtain ⟨sz, h5⟩ := pr
    rw [hf] at h
    simp only at h
    cases hd : get_photo_by_filesize_and_md5 acc.catalog sz h5 with
    | none =>
      rw [hd] at h
      simp only [Except.ok.injEq] at h
      subst h
      have h1 := inferencePath_count env fid
        { acc with events := acc.events ++ [Event.fingerprintCall cand.fullpath] } cand
      have h2 := inferencePath_duplicates env fid
        { acc with events := acc.events ++ [Event.fingerprintCall cand.fullpath] } cand
      simp only at h1 h2
      omega
    | some dup =>
      rw [hd] at h
      simp only at h
      cases hex : cand.existing with
      | none =>
        rw [hex] at h
        simp only [if_true] at h
        simp only [Except.ok.injEq] at h
        subst h
        simp
        omega
      | some ex =>
        rw [hex] at h
        simp only at h
        by_cases hne : (dup.id != ex.id) = true
        · rw [if_pos hne] at h
          simp only [Except.ok.injEq] at h
          subst h
          simp
          omega
        · rw [if_neg hne] at h
          simp only [Except.ok.injEq] at h
          subst h
          have h1 := inferencePath_count env fid
            { acc with events := acc.events ++ [Event.fingerprintCall cand.fullpath] } cand
          have h2 := inferencePath_duplicates env fid
            { acc with events := acc.events ++ [Event.fingerprintCall cand.fullpath] } cand
          simp only at h1 h2
          omega

theorem candidateStep_ok_events {env : ScanEnv} {fid : Nat} {acc : LoopSt}
    {cand : Candidate} {acc' : LoopSt}
    (h : candidateStep env fid acc cand = .ok acc') :
    ∃ tail, acc'.events = acc.events ++ tail ∧
      ∀ e ∈ tail, e = Event.fingerprintCall cand.fullpath ∨
        e = Event.inferCall cand.fullpath := by
  unfold candidateStep at h
  cases hf : env.fingerprint cand.fullpath with
  | error e =>
    rw [hf] at h
    exact absurd h (by simp)
  | ok pr =>
    obtain ⟨sz, h5⟩ := pr
    rw [hf] at h
    simp only at h
    cases hd : get_photo_by_filesize_and_md5 acc.catalog sz h5 with
    | none =>
      rw [hd] at h
      simp only [Except.ok.injEq] at h
      subst h
      refine ⟨[Event.fingerprintCall cand.fullpath, Event.inferCall cand.fullpath], ?_, ?_⟩
      · rw [inferencePath_events]
        simp
      · intro e he
        simp at he
        rcases he with he | he <;> simp [he]
    | some dup =>
      rw [hd] at h
      simp only at h
      cases hex : cand.existing with
      | none =>
        rw [hex] at h
        simp only [if_true] at h
        simp only [Except.ok.injEq] at h
        subst h
        exact ⟨[Event.fingerprintCall cand.fullpath], by simp,
          by intro e he; simp at he; simp [he]⟩
      | some ex =>
        rw [hex] at h
        simp only at h
        by_cases hne : (dup.id != ex.id) = true
        · rw [if_pos hne] at h
          simp only [Except.ok.injEq] at h
          subst h
          exact ⟨[Event.fingerprintCall cand.fullpath], by simp,
            by intro e he; simp at he; simp [he]⟩
        · rw [if_neg hne] at h
          simp only [Except.ok.injEq] at h
          subst h
          refine ⟨[Event.fingerprintCall cand.fullpath, Event.inferCall cand.fullpath], ?_, ?_⟩
          · rw [inferencePath_events]
            simp
          · intro e he
            simp at he
            rcases he with he | he <;> simp [he]

theorem loop_counts (env : ScanEnv) (fid : Nat) :
    ∀ (cands : List Candidate) (acc fin : LoopSt),
      cands.foldlM (candidateStep env fid) acc = .ok fin →
      fin.processed + fin.duplicates + fin.failed =
        acc.processed + acc.duplicates + acc.failed + cands.length
  | [], acc, fin, h => by
    simp only [List.foldlM_nil, pure, Except.pure, Except.ok.injEq] at h
    subst h
    simp
  | cand :: cands, acc, fin, h => by
    rw [List.foldlM_cons] at h
    cases hs : candidateStep env fid acc cand with
    | error e =>
      rw [hs] at h
      simp [Bind.bind, Except.bind] at h
    | ok acc1 =>
      rw [hs] at h
      simp only [Bind.bind, Except.bind] at h
      have h1 := candidateStep_ok_counts hs
      have h2 := loop_counts env fid cands acc1 fin h
      simp only [List.length_cons]
      omega

theorem loop_events (env : ScanEnv) (fid : Nat) :
    ∀ (cands : List Candidate) (acc fin : LoopSt),
      cands.foldlM (candidateStep env fid) acc = .ok fin →
      ∀ e ∈ fin.events, e ∈ acc.events ∨
        ∃ c ∈ cands, e = Event.fingerprintCall c.fullpath ∨ e = Event.inferCall c.fullpath
  | [], acc, fin, h => by
    simp only [List.foldlM_nil, pure, Except.pure, Except.ok.injEq] at h
    subst h
    intro e he
    exact Or.inl he
  | cand :: cands, acc, fin, h => by
    rw [List.foldlM_cons] at h
    cases hs : candidateStep env fid acc cand with
    | error e =>
      rw [hs] at h
      simp [Bind.bind, Except.bind] at h
    | ok acc1 =>
      rw [hs] at h
      simp only [Bind.bind, Except.bind] at h
      intro e he
      rcases loop_events env fid cands acc1 fin h e he with h1 | ⟨c, hc, hor⟩
      · obtain ⟨tail, htl, hall⟩ := candidateStep_ok_events hs
        rw [htl] at h1
        rcases List.mem_append.mp h1 with h2 | h2
        · exact Or.inl h2
        · exact Or.inr ⟨cand, List.mem_cons_self _ _, hall e h2⟩
      · exact Or.inr ⟨c, List.mem_cons_of_mem _ hc, hor⟩

@[simp] theorem ensure_model_loaded_catalog (st : ScannerState) :
    (ensure_model_loaded st).1.catalog = st.catalog := by
  unfold ensure_model_loaded
  split <;> rfl

@[simp] theorem ensure_model_loaded_flag (st : ScannerState) :
    (ensure_model_loaded st).1.model_loaded = true := by
  unfold ensure_model_loaded
  split
  · next hm => exact hm
  · rfl

theorem ensure_model_loaded_events (st : ScannerState) :
    (ensure_model_loaded st).2 = if st.model_loaded then [] else [Event.loadModel] := by
  unfold ensure_model_loaded
  split <;> simp_all

theorem scan_directory_ok_elim {env : ScanEnv} {st : ScannerState} {d : DirEntry}
    {out : ScannerState × List Event × ScanResult}
    (hv : d.valid = true) (h : scan_directory env st d = .ok out) :
    ∃ fin : LoopSt,
      ((dirEntriesFor (add_folder st.catalog d.path).1 (add_folder st.catalog d.path).2 d).filter
          (fun e => !isKnownComplete e.existing)).foldlM
        (candidateStep env (add_folder st.catalog d.path).2)
        (LoopSt.mk (add_folder st.catalog d.path).1 0 0 0 []) = .ok fin ∧
      out.1 = ⟨fin.catalog, true⟩ ∧
      out.2.1 = (if st.model_loaded then [] else [Event.loadModel]) ++ fin.events ∧
      out.2.2 = ScanResult.summary ⟨d.path,
        (dirEntriesFor (add_folder st.catalog d.path).1 (add_folder st.catalog d.path).2 d).length,
        fin.processed,
        ((dirEntriesFor (add_folder st.catalog d.path).1 (add_folder st.catalog d.path).2 d).filter
          (fun e => isKnownComplete e.existing)).length,
        fin.duplicates⟩ := by
  unfold scan_directory at h
  rw [hv] at h
  simp only [Bool.not_true] at h
  rw [if_neg (by simp)] at h
  simp only [ensure_model_loaded_catalog] at h
  cases hfold : ((dirEntriesFor (add_folder st.catalog d.path).1 (add_folder st.catalog d.path).2 d).filter
          (fun e => !isKnownComplete e.existing)).foldlM
        (candidateStep env (add_folder st.catalog d.path).2)
        (LoopSt.mk (add_folder st.catalog d.path).1 0 0 0 []) with
  | error e =>
    rw [hfold] at h
    simp at h
  | ok fin =>
    rw [hfold] at h
    simp only [Except.ok.injEq] at h
    refine ⟨fin, rfl, ?_, ?_, ?_⟩ <;> rw [← h] <;>
      simp [ensure_model_loaded_events]

theorem add_folder_existing {c : Catalog} {p : String} {f : FolderRow}
    (h : get_folder_by_path c p = some f) : add_folder c p = (c, f.id) := by
  unfold add_folder
  rw [h]

/-- C1: reconciling a directory in which every on-disk image file is
classified known-complete (the folder row exists and each image
filename's map lookup yields a Photo with `is_completed = 1`) returns a
summary with every file skipped and none processed, performs no
inference call and no fingerprint read (the event list holds at most the
model load), and leaves the catalog exactly unchanged — so a second run
over an unchanged directory whose first run completed everything makes
zero inference calls and no catalog writes. -/
theorem scan_directory_idempotent_second_run
    (env : ScanEnv) (st : ScannerState) (d : DirEntry) (f : FolderRow)
    (hv : d.valid = true)
    (hf : get_folder_by_path st.catalog d.path = some f)
    (hc : ∀ n ∈ d.listing, isImageFile n = true →
      isKnownComplete (photoMapLookup (get_photos_by_folder st.catalog f.id) n) = true) :
    scan_directory env st d = .ok (⟨st.catalog, true⟩,
      (if st.model_loaded then [] else [Event.loadModel]),
      ScanResult.summary ⟨d.path, (d.listing.filter isImageFile).length, 0,
        (d.listing.filter isImageFile).length, 0⟩) := by
  have hents : ∀ e ∈ dirEntriesFor st.catalog f.id d, isKnownComplete e.existing = true := by
    intro e he
    unfold dirEntriesFor at he
    simp only [List.mem_map] at he
    obtain ⟨nf, hnf, rfl⟩ := he
    obtain ⟨n, hn, rfl⟩ := hnf
    have hm := List.mem_filter.mp hn
    exact hc n hm.1 hm.2
  unfold scan_directory
  rw [hv]
  simp only [Bool.not_true]
  rw [if_neg (by simp)]
  simp only [ensure_model_loaded_catalog]
  rw [add_folder_existing hf]
  have hune : (dirEntriesFor st.catalog f.id d).filter
      (fun e => !isKnownComplete e.existing) = [] := by
    rw [List.filter_eq_nil_iff]
    intro e he
    simp [hents e he]
  have hpro : (dirEntriesFor st.catalog f.id d).filter
      (fun e => isKnownComplete e.existing) = dirEntriesFor st.catalog f.id d := by
    rw [List.filter_eq_self]
    intro e he
    exact hents e he
  simp only [hune, hpro, List.foldlM_nil, pure, Except.pure]
  simp [ensure_model_loaded_events, dirEntriesFor]

def envC1w : ScanEnv :=
  { fingerprint := fun _ => .error "io",
    infer := fun _ => .error "unused",
    copyFails := fun _ => false }

def catC1w : Catalog :=
  { folders := [⟨1, "/w"⟩],
    photos := [⟨1, 1, "/w/a.jpg", "a.jpg", 1, some 5, some "h", some 2, some 3,
      some 1, some 2020⟩],
    metadata := [⟨1, 1, "q1", Val.str "a scene"⟩],
    tags := [⟨1, 1, "sky"⟩],
    nextFolderId := 2, nextPhotoId := 2, nextMetadataId := 2, nextTagId := 2 }

def dC1w : DirEntry := { path := "/w", valid := true, listing := ["a.jpg"] }

/-- Witness for C1 at a concrete one-file directory. -/
theorem scan_directory_idempotent_second_run_witness :
    scan_directory envC1w ⟨catC1w, false⟩ dC1w = .ok (⟨catC1w, true⟩,
      [Event.loadModel], ScanResult.summary ⟨"/w", 1, 0, 1, 0⟩) :=
  scan_directory_idempotent_second_run envC1w ⟨catC1w, false⟩ dC1w ⟨1, "/w"⟩
    rfl rfl (by decide)

theorem length_filter_split {α : Type} (l : List α) (p : α → Bool) :
    (l.filter p).length + (l.filter (fun x => !p x)).length = l.length := by
  induction l with
  | nil => rfl
  | cons a t ih =>
    by_cases ha : p a <;> simp [List.filter_cons, ha] <;> omega

theorem scan_directory_invalid (env : ScanEnv) (st : ScannerState) {d : DirEntry}
    (hv : d.valid = false) :
    scan_directory env st d = .ok (st, [], ScanResult.invalidDir d.path) := by
  unfold scan_directory
  rw [hv]
  rfl

theorem mem_dirEntriesFor {c0 : Catalog} {fid : Nat} {d : DirEntry} {e : Candidate}
    (he : e ∈ dirEntriesFor c0 fid d) :
    ∃ n, n ∈ d.listing ∧ isImageFile n = true ∧ e.filename = n ∧
      e.fullpath = joinPath d.path n := by
  unfold dirEntriesFor at he
  simp only [List.mem_map] at he
  obtain ⟨nf, hnf, rfl⟩ := he
  obtain ⟨n, hn, rfl⟩ := hnf
  have hm := List.mem_filter.mp hn
  exact ⟨n, hm.1, hm.2, rfl, rfl⟩

/-- C9: in any completed directory scan, the reported total counts
exactly the files whose name passes the case-insensitive extension
allow-list {jpg, jpeg, png, gif}, and every fingerprint read and every
inference call of the run is on the joined path of such a file — so a
`.txt` file alongside images is never counted, fingerprinted, or passed
to inference, while every matching file is counted. -/
theorem scan_extension_filter
    (env : ScanEnv) (st : ScannerState) (d : DirEntry)
    (st' : ScannerState) (ev : List Event) (r : ScanResult)
    (hv : d.valid = true)
    (h : scan_directory env st d = .ok (st', ev, r)) :
    (∃ s, r = ScanResult.summary s ∧
      s.total_images = (d.listing.filter isImageFile).length) ∧
    (∀ p, (Event.fingerprintCall p ∈ ev ∨ Event.inferCall p ∈ ev) →
      ∃ n, n ∈ d.listing ∧ isImageFile n = true ∧ p = joinPath d.path n) := by
  obtain ⟨fin, hfold, hst, hev, hr⟩ := scan_directory_ok_elim hv h
  simp only at hst hev hr
  constructor
  · refine ⟨_, hr, ?_⟩
    simp [dirEntriesFor]
  · intro p hp
    have hmem : ∀ e : Event, e ∈ ev → e ∈ (if st.model_loaded then [] else [Event.loadModel]) ∨
        e ∈ fin.events := by
      intro e hee
      rw [hev] at hee
      exact List.mem_append.mp hee
    have hloop := loop_events env (add_folder st.catalog d.path).2 _ _ _ hfold
    have key : ∀ e : Event, e ∈ ev →
        (∃ c : Candidate, c ∈ dirEntriesFor (add_folder st.catalog d.path).1
            (add_folder st.catalog d.path).2 d ∧
          (e = Event.fingerprintCall c.fullpath ∨ e = Event.inferCall c.fullpath)) ∨
        e = Event.loadModel := by
      intro e hee
      rcases hmem e hee with h1 | h1
      · right
        by_cases hm : st.model_loaded <;> simp [hm] at h1
        · exact h1
      · rcases hloop e h1 with h2 | ⟨c, hc, hor⟩
        · simp at h2
        · exact Or.inl ⟨c, List.mem_of_mem_filter hc, hor⟩
    rcases hp with hp | hp
    · rcases key _ hp with ⟨c, hc, hor⟩ | habs
      · obtain ⟨n, hn, himg, _, hfp⟩ := mem_dirEntriesFor hc
        refine ⟨n, hn, himg, ?_⟩
        rcases hor with hh | hh
        · injection hh with hh
          exact hh ▸ hfp
        · exact absurd hh (by simp)
      · exact absurd habs (by simp)
    · rcases key _ hp with ⟨c, hc, hor⟩ | habs
      · obtain ⟨n, hn, himg, _, hfp⟩ := mem_dirEntriesFor hc
        refine ⟨n, hn, himg, ?_⟩
        rcases hor with hh | hh
        · exact absurd hh (by simp)
        · injection hh with hh
          exact hh ▸ hfp
      · exact absurd habs (by simp)

/-- Instrumentation mirroring scan_directory's loop: how many candidates
of this scan landed in the except handler (`none` when the directory is
invalid or the scan aborted on a fingerprint error). -/
def scanFailures (env : ScanEnv) (st : ScannerState) (d : DirEntry) : Option Nat :=
  if !d.valid then none
  else
    match ((dirEntriesFor (add_folder st.catalog d.path).1
          (add_folder st.catalog d.path).2 d).filter
        (fun e => !isKnownComplete e.existing)).foldlM
        (candidateStep env (add_folder st.catalog d.path).2)
        (LoopSt.mk (add_folder st.catalog d.path).1 0 0 0 []) with
    | .error _ => none
    | .ok fin => some fin.failed

/-- C10: every summary a directory scan returns satisfies
processed + skipped + duplicates ≤ total_images, with equality exactly
when no candidate of the run landed in the per-file error handler
(`scanFailures` = 0): each matched image file is accounted to exactly
one of the skipped / duplicates / processed / failed outcomes. -/
theorem scan_summary_accounting
    (env : ScanEnv) (st : ScannerState) (d : DirEntry)
    (st' : ScannerState) (ev : List Event) (s : ScanSummary)
    (h : scan_directory env st d = .ok (st', ev, ScanResult.summary s)) :
    s.processed + s.skipped + s.duplicates ≤ s.total_images ∧
    ∃ f, scanFailures env st d = some f ∧
      (s.processed + s.skipped + s.duplicates = s.total_images ↔ f = 0) := by
  have hv : d.valid = true := by
    by_cases hv : d.valid
    · exact hv
    · rw [scan_directory_invalid env st (Bool.not_eq_true _ ▸ eq_false_of_ne_true hv)] at h
      simp at h
  obtain ⟨fin, hfold, hst, hev, hr⟩ := scan_directory_ok_elim hv h
  simp only at hst hev hr
  simp only [ScanResult.summary.injEq] at hr
  subst hr
  have hcount := loop_counts env (add_folder st.catalog d.path).2 _ _ _ hfold
  simp only at hcount
  have hsplit := length_filter_split
    (dirEntriesFor (add_folder st.catalog d.path).1 (add_folder st.catalog d.path).2 d)
    (fun e => isKnownComplete e.existing)
  have hfail : scanFailures env st d = some fin.failed := by
    unfold scanFailures
    rw [hv]
    simp only [Bool.not_true]
    rw [if_neg (by simp)]
    rw [hfold]
  refine ⟨?_, fin.failed, hfail, ?_⟩ <;> dsimp only <;> omega

def envC9w : ScanEnv :=
  { fingerprint := fun _ => .error "io",
    infer := fun _ => .error "unused",
    copyFails := fun _ => false }

def dC9w : DirEntry := { path := "/e", valid := true, listing := ["b.txt"] }

def catC9w : Catalog :=
  { folders := [⟨1, "/e"⟩], photos := [], metadata := [], tags := [],
    nextFolderId := 2, nextPhotoId := 1, nextMetadataId := 1, nextTagId := 1 }

/-- Witness for C9: a directory holding only a `.txt` file. -/
theorem scan_extension_filter_witness :
    (∃ s, ScanResult.summary ⟨"/e", 0, 0, 0, 0⟩ = ScanResult.summary s ∧
      s.total_images = (["b.txt"].filter isImageFile).length) ∧
    (∀ p, (Event.fingerprintCall p ∈ [Event.loadModel] ∨
        Event.inferCall p ∈ [Event.loadModel]) →
      ∃ n, n ∈ ["b.txt"] ∧ isImageFile n = true ∧ p = joinPath "/e" n) :=
  scan_extension_filter envC9w ⟨Catalog.empty, false⟩ dC9w ⟨catC9w, true⟩
    [Event.loadModel] (ScanResult.summary ⟨"/e", 0, 0, 0, 0⟩) rfl (by rfl)

def envC10w : ScanEnv :=
  { fingerprint := fun _ => .ok (1, "x"),
    infer := fun _ => .error "model",
    copyFails := fun _ => false }

def dC10w : DirEntry := { path := "/f", valid := true, listing := ["a.jpg"] }

def catC10w : Catalog :=
  { folders := [⟨1, "/f"⟩],
    photos := [⟨1, 1, "/f/a.jpg", "a.jpg", 0, none, none, none, none, none, none⟩],
    metadata := [], tags := [],
    nextFolderId := 2, nextPhotoId := 2, nextMetadataId := 1, nextTagId := 1 }

/-- Witness for C10: one candidate whose inference fails, so the sum
falls short of the total by exactly the failure count. -/
theorem scan_summary_accounting_witness :
    0 + 0 + 0 ≤ 1 ∧
    ∃ f, scanFailures envC10w ⟨Catalog.empty, false⟩ dC10w = some f ∧
      (0 + 0 + 0 = 1 ↔ f = 0) :=
  scan_summary_accounting envC10w ⟨Catalog.empty, false⟩ dC10w ⟨catC10w, true⟩
    [Event.loadModel, Event.fingerprintCall "/f/a.jpg", Event.inferCall "/f/a.jpg"]
    ⟨"/f", 1, 0, 0, 0⟩ (by rfl)

/- ------------------------------------------------------------------ -/
/- C3: a fingerprint I/O error aborts the whole scan (code bug).       -/
/- ------------------------------------------------------------------ -/

def envC3 : ScanEnv :=
  { fingerprint := fun p => if p == "/d3/ok.jpg" then .ok (1, "a") else .error "io",
    infer := fun _ => .error "unused",
    copyFails := fun _ => false }

def dC3 : DirEntry := { path := "/d3", valid := true, listing := ["bad.jpg", "ok.jpg"] }

/-- C3: the claim fails on the code. The size/md5 fingerprint block
(batch_scanner.py lines 148-156) sits before the try of lines 200-260,
so an I/O error reading one candidate ("/d3/bad.jpg" here) propagates
out of scan_directory: the whole scan aborts with the exception and no
summary is returned — and the same exception also aborts a recursive
walk. This theorem evaluates the embedded code at that failing input. -/
theorem scan_fingerprint_error_aborts_whole_scan :
    scan_directory envC3 ⟨Catalog.empty, false⟩ dC3 = .error "io" ∧
    scan_recursive envC3 ⟨Catalog.empty, false⟩ (DirTree.node dC3 []) = .error "io" :=
  ⟨by rfl, by rfl⟩

/- ------------------------------------------------------------------ -/
/- C4: duplicate-copy failure leaves a complete photo with no          -/
/- metadata (code bug: the write is not atomic).                       -/
/- ------------------------------------------------------------------ -/

def catC4 : Catalog :=
  { folders := [⟨1, "/other"⟩],
    photos := [⟨1, 1, "/other/orig.jpg", "orig.jpg", 1, some 5, some "h",
      some 9, some 8, some 7, some 2000⟩],
    metadata := [⟨1, 1, "q1", Val.str "a scene"⟩],
    tags := [⟨1, 1, "tree"⟩],
    nextFolderId := 2, nextPhotoId := 2, nextMetadataId := 2, nextTagId := 2 }

def envC4 : ScanEnv :=
  { fingerprint := fun _ => .ok (5, "h"),
    infer := fun _ => .error "unused",
    copyFails := fun _ => true }

def dC4 : DirEntry := { path := "/d2", valid := true, listing := ["copy.jpg"] }

/-- C4: the claim fails on the code. In the duplicate-reuse branch the
photo row is first written `complete` (lines 169-188) and only then are
Metadata/Tags copied by `_copy_photo_metadata_and_tags`, which swallows
its own exceptions (returns False). When the copy step raises, the batch
continues (the file still counts as a duplicate, non-fatally) but the
candidate photo (id 2) is left `complete` with no Metadata and no Tags —
exactly the state the claim says can never occur; nothing is atomic. -/
theorem duplicate_copy_failure_leaves_complete_photo_without_metadata :
    (scan_directory envC4 ⟨catC4, false⟩ dC4).toOption.map
        (fun out => (out.2.2,
          (get_photo_by_id out.1.catalog 2).map Photo.is_completed,
          get_photo_metadata out.1.catalog 2,
          get_photo_tags out.1.catalog 2)) =
      some (ScanResult.summary ⟨"/d2", 1, 0, 0, 1⟩, some 1, [], []) := by rfl

/- ------------------------------------------------------------------ -/
/- C6: invalid-target validation.                                      -/
/- ------------------------------------------------------------------ -/

def envC6 : ScanEnv :=
  { fingerprint := fun _ => .error "unused",
    infer := fun _ => .error "unused",
    copyFails := fun _ => false }

/-- C6 counterexample: the claim says an invalid path is validated
"before any other work" for the recursive scan too, but
`scan_recursive` calls `_ensure_model_loaded()` (line 280) before the
validity check (line 282): a fresh scanner pointed at a missing path
performs the model-load work (the `loadModel` event, and the flipped
`model_loaded` flag) before the validation failure is reported. -/
theorem scan_recursive_loads_model_before_validating :
    scan_recursive envC6 ⟨Catalog.empty, false⟩
        (DirTree.node ⟨"/missing", false, []⟩ []) =
      .ok (⟨Catalog.empty, true⟩, [Event.loadModel],
        RecResult.invalidDir "/missing") ∧
    ([Event.loadModel] : List Event) ≠ [] :=
  ⟨by rfl, by simp⟩

/-- C6 (amended): for every path that does not exist or is not a
directory, the single-directory scan validates before any other work
(no external event, state unchanged) and returns the error dict; the
recursive scan first ensures the model is loaded and then validates,
returning the error dict with the catalog untouched and no fingerprint
or inference work done; in both modes the CLI then prints an error line
and exits with status 1. -/
theorem invalid_directory_fails_fast :
    (∀ (env : ScanEnv) (st : ScannerState) (p : String) (l : List String),
      scan_directory env st ⟨p, false, l⟩ =
        .ok (st, [], ScanResult.invalidDir p)) ∧
    (∀ (env : ScanEnv) (st : ScannerState) (t : DirTree),
      t.entry.valid = false →
      scan_recursive env st t =
        .ok (⟨st.catalog, true⟩, (if st.model_loaded then [] else [Event.loadModel]),
          RecResult.invalidDir t.entry.path)) ∧
    (∀ p, cli_exit_single (ScanResult.invalidDir p) = (1, true)) ∧
    (∀ p, cli_exit_recursive (RecResult.invalidDir p) = (1, true)) := by
  refine ⟨?_, ?_, fun p => rfl, fun p => rfl⟩
  · intro env st p l
    exact scan_directory_invalid env st rfl
  · intro env st t hv
    unfold scan_recursive
    rw [hv]
    simp only [Bool.not_false, if_pos]
    rw [ensure_model_loaded_events]
    have h1 : (ensure_model_loaded st).1 = ⟨st.catalog, true⟩ := by
      unfold ensure_model_loaded
      split
      · next hm =>
        cases st
        simp_all
      · rfl
    rw [h1]

def stC6w : ScannerState := ⟨Catalog.empty, false⟩

/-- Witness for the amended C6 on concrete invalid paths. -/
theorem invalid_directory_fails_fast_witness :
    scan_recursive envC6 stC6w (DirTree.node ⟨"/gone", false, []⟩ []) =
      .ok (⟨Catalog.empty, true⟩, [Event.loadModel], RecResult.invalidDir "/gone") :=
  invalid_directory_fails_fast.2.1 envC6 stC6w (DirTree.node ⟨"/gone", false, []⟩ []) rfl

theorem dictGet_dictSet_self : ∀ (d : List (String × Val)) (k : String) (v : Val),
    dictGet (dictSet d k v) k = some v
  | [], k, v => by simp [dictSet, dictGet]
  | kv :: t, k, v => by
    by_cases hk : kv.1 = k
    · simp [dictSet, dictGet, hk]
    · have h1 : (kv.1 == k) = false := by simp [hk]
      simp only [dictSet, h1, Bool.false_eq_true, if_false]
      simp only [dictGet, List.find?_cons, h1]
      exact dictGet_dictSet_self t k v

theorem dictGet_dictSet_other : ∀ (d : List (String × Val)) (k : String) (v : Val)
    (x : String), x ≠ k → dictGet (dictSet d k v) x = dictGet d x
  | [], k, v, x, hx => by
    simp [dictSet, dictGet, Ne.symm hx]
  | kv :: t, k, v, x, hx => by
    have hkx : (k == x) = false := by simp [Ne.symm hx]
    by_cases hk : kv.1 = k
    · have h1 : (kv.1 == k) = true := by simp [hk]
      have h2 : (kv.1 == x) = false := by
        simp [hk]
        exact Ne.symm hx
      simp only [dictSet, h1, if_true]
      simp only [dictGet, List.find?_cons, hkx, h2]
    · have h1 : (kv.1 == k) = false := by simp [hk]
      simp only [dictSet, h1, Bool.false_eq_true, if_false]
      cases h2 : (kv.1 == x) with
      | true => simp only [dictGet, List.find?_cons, h2]
      | false =>
        simp only [dictGet, List.find?_cons, h2]
        exact dictGet_dictSet_other t k v x hx

/-- The month/year the try block of lines 241-255 extracts: the EXIF
DateTimeOriginal of the effective image, when present and parsable. -/
def exifDateOf (img : Option ImageDesc) (parseDate : String → Option (Nat × Nat)) :
    Option (Nat × Nat) :=
  match img with
  | none => none
  | some i =>
    match i.exif with
    | none => none
    | some exif_data =>
      match exifLookup exif_data 36867 with
      | none => none
      | some ds => parseDate ds


/-- C8: for a file processed through inference (`isfile` true), the
stored capture month/year come from the EXIF DateTimeOriginal timestamp
whenever the effective image has EXIF data containing tag 36867 and
`strptime` parses it; in every other case (no image EXIF, tag absent,
or unparsable) they come from the file's modification time — and they
are never left null. -/
theorem capture_date_precedence (fd : FileDesc) (image : Option ImageDesc)
    (parseDate : String → Option (Nat × Nat)) (hf : fd.isfile = true) :
    (∀ mo yr, exifDateOf (imageArg fd image) parseDate = some (mo, yr) →
      dictGet (get_image_metadata fd image parseDate) "month" = some (Val.nat mo) ∧
      dictGet (get_image_metadata fd image parseDate) "year" = some (Val.nat yr)) ∧
    (exifDateOf (imageArg fd image) parseDate = none →
      dictGet (get_image_metadata fd image parseDate) "month" =
        some (Val.nat fd.mtimeMonth) ∧
      dictGet (get_image_metadata fd image parseDate) "year" =
        some (Val.nat fd.mtimeYear)) ∧
    (dictGet (get_image_metadata fd image parseDate) "month").isSome ∧
    (dictGet (get_image_metadata fd image parseDate) "year").isSome := by
  have hM : ∀ v1 v2, dictGet (dictSet (dictSet [] "filesize" v1) "md5" v2) "month" = none := by
    intro v1 v2
    rw [dictGet_dictSet_other _ _ _ _ (by decide), dictGet_dictSet_other _ _ _ _ (by decide)]
    rfl
  have hY : ∀ v1 v2, dictGet (dictSet (dictSet [] "filesize" v1) "md5" v2) "year" = none := by
    intro v1 v2
    rw [dictGet_dictSet_other _ _ _ _ (by decide), dictGet_dictSet_other _ _ _ _ (by decide)]
    rfl
  have hMonthOf : ∀ (d : List (String × Val)) (mm my : Val),
      dictGet (dictSet (dictSet d "month" mm) "year" my) "month" = some mm := by
    intro d mm my
    rw [dictGet_dictSet_other _ _ _ _ (by decide), dictGet_dictSet_self]
  have hYearOf : ∀ (d : List (String × Val)) (mm my : Val),
      dictGet (dictSet (dictSet d "month" mm) "year" my) "year" = some my := by
    intro d mm my
    rw [dictGet_dictSet_self]
  have hWHm : ∀ (d : List (String × Val)) (w hh : Val), dictGet d "month" = none →
      dictGet (dictSet (dictSet d "width" w) "height" hh) "month" = none := by
    intro d w hh hd
    rw [dictGet_dictSet_other _ _ _ _ (by decide),
      dictGet_dictSet_other _ _ _ _ (by decide)]
    exact hd
  have hWHy : ∀ (d : List (String × Val)) (w hh : Val), dictGet d "year" = none →
      dictGet (dictSet (dictSet d "width" w) "height" hh) "year" = none := by
    intro d w hh hd
    rw [dictGet_dictSet_other _ _ _ _ (by decide),
      dictGet_dictSet_other _ _ _ _ (by decide)]
    exact hd
  cases himg : imageArg fd image with
  | none =>
    unfold get_image_metadata
    rw [hf, himg]
    simp only [exifDateOf, if_true, hM, hY, Option.isNone_none, Bool.true_or]
    refine ⟨fun mo yr habs => by simp at habs, fun _ => ⟨?_, ?_⟩, ?_, ?_⟩ <;>
      simp [hMonthOf, hYearOf]
  | some i =>
    cases hex : i.exif with
    | none =>
      unfold get_image_metadata
      rw [hf, himg]
      simp only [exifDateOf, hex]
      have hm := hWHm (dictSet (dictSet [] "filesize" (Val.nat fd.filesize)) "md5"
        (Val.str fd.md5)) (Val.nat i.width) (Val.nat i.height) (hM _ _)
      have hy := hWHy (dictSet (dictSet [] "filesize" (Val.nat fd.filesize)) "md5"
        (Val.str fd.md5)) (Val.nat i.width) (Val.nat i.height) (hY _ _)
      simp only [hm, hy, Option.isNone_none, Bool.true_or, if_true]
      refine ⟨fun mo yr habs => by simp at habs, fun _ => ⟨?_, ?_⟩, ?_, ?_⟩ <;>
        simp [hMonthOf, hYearOf]
    | some exif_data =>
      cases hlk : exifLookup exif_data 36867 with
      | none =>
        unfold get_image_metadata
        rw [hf, himg]
        simp only [exifDateOf, hex, hlk]
        have hm := hWHm (dictSet (dictSet [] "filesize" (Val.nat fd.filesize)) "md5"
          (Val.str fd.md5)) (Val.nat i.width) (Val.nat i.height) (hM _ _)
        have hy := hWHy (dictSet (dictSet [] "filesize" (Val.nat fd.filesize)) "md5"
          (Val.str fd.md5)) (Val.nat i.width) (Val.nat i.height) (hY _ _)
        simp only [hm, hy, Option.isNone_none, Bool.true_or, if_true]
        refine ⟨fun mo yr habs => by simp at habs, fun _ => ⟨?_, ?_⟩, ?_, ?_⟩ <;>
          simp [hMonthOf, hYearOf]
      | some ds =>
        cases hpd : parseDate ds with
        | none =>
          unfold get_image_metadata
          rw [hf, himg]
          simp only [exifDateOf, hex, hlk, hpd]
          have hm := hWHm (dictSet (dictSet [] "filesize" (Val.nat fd.filesize)) "md5"
            (Val.str fd.md5)) (Val.nat i.width) (Val.nat i.height) (hM _ _)
          have hy := hWHy (dictSet (dictSet [] "filesize" (Val.nat fd.filesize)) "md5"
            (Val.str fd.md5)) (Val.nat i.width) (Val.nat i.height) (hY _ _)
          simp only [hm, hy, Option.isNone_none, Bool.true_or, if_true]
          refine ⟨fun mo yr habs => by simp at habs, fun _ => ⟨?_, ?_⟩, ?_, ?_⟩ <;>
            simp [hMonthOf, hYearOf]
        | some dt =>
          unfold get_image_metadata
          rw [hf, himg]
          simp only [exifDateOf, hex, hlk, hpd, if_true]
          have hmo := hMonthOf (dictSet (dictSet (dictSet (dictSet [] "filesize"
            (Val.nat fd.filesize)) "md5" (Val.str fd.md5)) "width" (Val.nat i.width))
            "height" (Val.nat i.height)) (Val.nat dt.1) (Val.nat dt.2)
          have hyr := hYearOf (dictSet (dictSet (dictSet (dictSet [] "filesize"
            (Val.nat fd.filesize)) "md5" (Val.str fd.md5)) "width" (Val.nat i.width))
            "height" (Val.nat i.height)) (Val.nat dt.1) (Val.nat dt.2)
          simp only [hmo, hyr, Option.isNone_some, Bool.or_self, Bool.false_eq_true, if_false]
          refine ⟨fun mo yr hEq => ?_, fun habs => by simp at habs, by simp [hmo], by simp [hyr]⟩
          injection hEq with hEq
          subst hEq
          exact ⟨hmo, hyr⟩

def fdC8w : FileDesc :=
  { isfile := true, filesize := 5, md5 := "h", mtimeMonth := 6,
    mtimeYear := 2021, opened := ⟨10, 20, none⟩ }

def imgC8w : Option ImageDesc := some ⟨10, 20, some [(36867, "2020:01:02 03:04:05")]⟩

def pdC8w : String → Option (Nat × Nat) := fun _ => some (1, 2020)

/-- Witness for C8 at a concrete file with a parsable EXIF date. -/
theorem capture_date_precedence_witness :
    (∀ mo yr, exifDateOf (imageArg fdC8w imgC8w) pdC8w = some (mo, yr) →
      dictGet (get_image_metadata fdC8w imgC8w pdC8w) "month" = some (Val.nat mo) ∧
      dictGet (get_image_metadata fdC8w imgC8w pdC8w) "year" = some (Val.nat yr)) ∧
    (exifDateOf (imageArg fdC8w imgC8w) pdC8w = none →
      dictGet (get_image_metadata fdC8w imgC8w pdC8w) "month" =
        some (Val.nat fdC8w.mtimeMonth) ∧
      dictGet (get_image_metadata fdC8w imgC8w pdC8w) "year" =
        some (Val.nat fdC8w.mtimeYear)) ∧
    (dictGet (get_image_metadata fdC8w imgC8w pdC8w) "month").isSome ∧
    (dictGet (get_image_metadata fdC8w imgC8w pdC8w) "year").isSome :=
  capture_date_precedence fdC8w imgC8w pdC8w rfl

theorem scanDirs_spec (env : ScanEnv) :
    ∀ (dirs : List DirEntry) (st : ScannerState) (acc : RecSummary) (ev : List Event)
      (st' : ScannerState) (ev' : List Event) (agg : RecSummary),
      scanDirs env st dirs acc ev = .ok (st', ev', agg) →
      ∃ rs, dirResults env st dirs = .ok rs ∧
        rs.length = dirs.length ∧
        agg.directories_scanned = acc.directories_scanned + dirs.length ∧
        agg.total_images = acc.total_images + (rs.map ScanResult.totalContrib).sum ∧
        agg.processed = acc.processed + (rs.map ScanResult.processedContrib).sum ∧
        agg.skipped = acc.skipped + (rs.map ScanResult.skippedContrib).sum
  | [], st, acc, ev, st', ev', agg, h => by
    unfold scanDirs at h
    simp only [Except.ok.injEq, Prod.mk.injEq] at h
    obtain ⟨-, -, rfl⟩ := h
    exact ⟨[], rfl, rfl, by simp, by simp, by simp, by simp⟩
  | d :: ds, st, acc, ev, st', ev', agg, h => by
    unfold scanDirs at h
    cases hs : scan_directory env st d with
    | error e =>
      rw [hs] at h
      simp at h
    | ok trip =>
      obtain ⟨st1, ev1, r⟩ := trip
      rw [hs] at h
      simp only at h
      obtain ⟨rs, hrs, hlen, hdirs, htot, hproc, hskip⟩ :=
        scanDirs_spec env ds st1 _ _ st' ev' agg h
      refine ⟨r :: rs, ?_, by simp [hlen], ?_, ?_, ?_, ?_⟩
      · unfold dirResults
        rw [hs]
        simp only
        rw [hrs]
      · simp only [List.length_cons]
        dsimp only at hdirs
        omega
      · simp only [List.map_cons, List.sum_cons]
        dsimp only at htot
        omega
      · simp only [List.map_cons, List.sum_cons]
        dsimp only at hproc
        omega
      · simp only [List.map_cons, List.sum_cons]
        dsimp only at hskip
        omega

mutual

theorem walk_subtrees_segment : ∀ (t : DirTree), ∀ s ∈ t.subtrees, s.walk <:+: t.walk
  | .node e cs => by
    intro s hs
    rw [DirTree.subtrees] at hs
    rcases List.mem_cons.mp hs with rfl | hs
    · exact List.infix_refl _
    · have := walkAll_subtrees_segment cs s hs
      rw [DirTree.walk]
      exact this.trans (List.suffix_cons e _).isInfix |>.trans (List.infix_refl _)

theorem walkAll_subtrees_segment : ∀ (ts : List DirTree), ∀ s ∈ DirTree.subtreesAll ts,
    s.walk <:+: DirTree.walkAll ts
  | [] => by
    intro s hs
    simp [DirTree.subtreesAll] at hs
  | t :: ts => by
    intro s hs
    rw [DirTree.subtreesAll] at hs
    rw [DirTree.walkAll]
    rcases List.mem_append.mp hs with hs | hs
    · exact (walk_subtrees_segment t s hs).trans
        ((List.prefix_append _ _).isInfix)
    · exact (walkAll_subtrees_segment ts s hs).trans
        ((List.suffix_append _ _).isInfix)

end

/-- C7: a successful recursive scan applies the directory reconciler to
exactly the pre-order walk of the tree — the root first
(`t.walk = t.entry :: walkAll t.children`) and every reachable
directory's own walk an infix of it (parent before children) — and
returns an aggregate whose directories_scanned equals the number of
directories visited and whose total_images / processed / skipped are
the sums of the corresponding per-directory counts, in visit order with
the catalog state threaded through (`dirResults`). -/
theorem scan_recursive_aggregation
    (env : ScanEnv) (st : ScannerState) (t : DirTree)
    (st' : ScannerState) (ev : List Event) (agg : RecSummary)
    (h : scan_recursive env st t = .ok (st', ev, RecResult.summary agg)) :
    ∃ rs, dirResults env (ensure_model_loaded st).1 t.walk = .ok rs ∧
      rs.length = t.walk.length ∧
      agg.directories_scanned = t.walk.length ∧
      agg.total_images = (rs.map ScanResult.totalContrib).sum ∧
      agg.processed = (rs.map ScanResult.processedContrib).sum ∧
      agg.skipped = (rs.map ScanResult.skippedContrib).sum ∧
      t.walk = t.entry :: DirTree.walkAll t.children ∧
      (∀ s ∈ t.subtrees, s.walk <:+: t.walk) := by
  unfold scan_recursive at h
  cases hv : t.entry.valid with
  | false =>
    rw [hv] at h
    simp at h
  | true =>
    rw [hv] at h
    simp only [Bool.not_true] at h
    rw [if_neg (by simp)] at h
    cases hsd : scanDirs env (ensure_model_loaded st).1 t.walk ⟨0, 0, 0, 0⟩
        (ensure_model_loaded st).2 with
    | error e =>
      rw [hsd] at h
      simp at h
    | ok trip =>
      obtain ⟨st2, ev2, agg2⟩ := trip
      rw [hsd] at h
      simp only [Except.ok.injEq, Prod.mk.injEq, RecResult.summary.injEq] at h
      obtain ⟨rfl, rfl, rfl⟩ := h
      obtain ⟨rs, hrs, hlen, hdirs, htot, hproc, hskip⟩ :=
        scanDirs_spec env t.walk _ _ _ _ _ _ hsd
      refine ⟨rs, hrs, hlen, by simpa using hdirs, by simpa using htot,
        by simpa using hproc, by simpa using hskip, ?_, walk_subtrees_segment t⟩
      cases t
      rfl

def envC7w : ScanEnv :=
  { fingerprint := fun _ => .error "unused",
    infer := fun _ => .error "unused",
    copyFails := fun _ => false }

def stC7w : ScannerState := ⟨Catalog.empty, false⟩

def tC7w : DirTree :=
  DirTree.node ⟨"/r", true, []⟩ [DirTree.node ⟨"/r/c", true, []⟩ []]

def catC7w : Catalog :=
  { folders := [⟨1, "/r"⟩, ⟨2, "/r/c"⟩], photos := [], metadata := [], tags := [],
    nextFolderId := 3, nextPhotoId := 1, nextMetadataId := 1, nextTagId := 1 }

/-- Witness for C7 on a two-directory tree. -/
theorem scan_recursive_aggregation_witness :
    ∃ rs, dirResults envC7w (ensure_model_loaded stC7w).1 tC7w.walk = .ok rs ∧
      rs.length = tC7w.walk.length ∧
      (2 : Nat) = tC7w.walk.length ∧
      (0 : Nat) = (rs.map ScanResult.totalContrib).sum ∧
      (0 : Nat) = (rs.map ScanResult.processedContrib).sum ∧
      (0 : Nat) = (rs.map ScanResult.skippedContrib).sum ∧
      tC7w.walk = tC7w.entry :: DirTree.walkAll tC7w.children ∧
      (∀ s ∈ tC7w.subtrees, s.walk <:+: tC7w.walk) :=
  scan_recursive_aggregation envC7w stC7w tC7w ⟨catC7w, true⟩ [Event.loadModel]
    ⟨2, 0, 0, 0⟩ (by rfl)

theorem foldl_copy_metadata_nextPhotoId (rows : List MetadataRow) (c : Catalog) (pid : Nat) :
    (rows.foldl (fun c item => (add_metadata c pid item.key item.value).1) c).nextPhotoId =
      c.nextPhotoId := by
  induction rows generalizing c with
  | nil => rfl
  | cons r rs ih =>
    simp only [List.foldl_cons]
    rw [ih]
    rfl

theorem foldl_copy_tags_nextPhotoId (rows : List TagRow) (c : Catalog) (pid : Nat) :
    (rows.foldl (fun c item => (add_tag c pid item.tag).1) c).nextPhotoId =
      c.nextPhotoId := by
  induction rows generalizing c with
  | nil => rfl
  | cons r rs ih =>
    simp only [List.foldl_cons]
    rw [ih]
    rfl

theorem copy_ok_spec (c : Catalog) (src tgt : Nat) (hne : tgt ≠ src) :
    ((copy_photo_metadata_and_tags c src tgt false).1).photos = c.photos ∧
    ((copy_photo_metadata_and_tags c src tgt false).1).nextPhotoId = c.nextPhotoId ∧
    (get_photo_metadata (copy_photo_metadata_and_tags c src tgt false).1 tgt).map mdProj =
      (get_photo_metadata c src).map mdProj ∧
    get_photo_metadata (copy_photo_metadata_and_tags c src tgt false).1 src =
      get_photo_metadata c src ∧
    (get_photo_tags (copy_photo_metadata_and_tags c src tgt false).1 tgt).map tagProj =
      (get_photo_tags c src).map tagProj ∧
    get_photo_tags (copy_photo_metadata_and_tags c src tgt false).1 src =
      get_photo_tags c src := by
  unfold copy_photo_metadata_and_tags
  rw [if_neg (by simp)]
  simp only
  set mrows := get_photo_metadata c src with hmrows
  set cb := (mrows.foldl (fun c item => (add_metadata c tgt item.key item.value).1)
    (delete_photo_metadata c tgt)) with hcb
  have hcb_tags : cb.tags = c.tags := by
    rw [hcb, foldl_copy_metadata_tags]
    rfl
  have hcb_photos : cb.photos = c.photos := by
    rw [hcb, foldl_copy_metadata_photos]
    rfl
  have hcb_next : cb.nextPhotoId = c.nextPhotoId := by
    rw [hcb, foldl_copy_metadata_nextPhotoId]
    rfl
  have hcb_md_tgt : (get_photo_metadata cb tgt).map mdProj = mrows.map mdProj := by
    rw [hcb, foldl_copy_metadata_get_self]
    simp
  have hcb_md_src : get_photo_metadata cb src = get_photo_metadata c src := by
    rw [hcb, foldl_copy_metadata_get_other _ _ _ _ (Ne.symm hne)]
    exact get_photo_metadata_delete_other c tgt src (Ne.symm hne)
  have hcb_tags_any : ∀ x, get_photo_tags cb x = get_photo_tags c x := by
    intro x
    unfold get_photo_tags
    rw [hcb_tags]
  set trows := get_photo_tags cb src with htrows
  set cd := (trows.foldl (fun c item => (add_tag c tgt item.tag).1)
    (delete_photo_tags cb tgt)) with hcd
  have hcd_photos : cd.photos = c.photos := by
    rw [hcd, foldl_copy_tags_photos]
    rw [delete_photo_tags_photos]
    exact hcb_photos
  have hcd_next : cd.nextPhotoId = c.nextPhotoId := by
    rw [hcd, foldl_copy_tags_nextPhotoId, delete_photo_tags_nextPhotoId]
    exact hcb_next
  have hcd_md : ∀ x, get_photo_metadata cd x = get_photo_metadata cb x := by
    intro x
    rw [hcd]
    unfold get_photo_metadata
    rw [foldl_copy_tags_metadata, delete_photo_tags_metadata]
  have hcd_tag_tgt : (get_photo_tags cd tgt).map tagProj =
      (get_photo_tags c src).map tagProj := by
    rw [hcd, foldl_copy_tags_get_self]
    rw [get_photo_tags_delete_self]
    rw [htrows, hcb_tags_any src]
    simp
  have hcd_tag_src : get_photo_tags cd src = get_photo_tags c src := by
    rw [hcd, foldl_copy_tags_get_other _ _ _ _ (Ne.symm hne)]
    rw [get_photo_tags_delete_other cb tgt src (Ne.symm hne)]
    exact hcb_tags_any src
  exact ⟨hcd_photos, hcd_next, by rw [hcd_md tgt]; exact hcb_md_tgt,
    by rw [hcd_md src]; exact hcb_md_src, hcd_tag_tgt, hcd_tag_src⟩

/-- C2: (i) the duplicate lookup by (filesize, md5) only ever returns
Photos marked complete; (ii) when a candidate's fingerprint matches such
a donor Photo with a different id (and the copy step does not fault),
the candidate is resolved without any inference call (only the
fingerprint read is added to the events), counted as a duplicate, its
Photo row created-or-updated complete with the fingerprint's size/hash
and the donor's width/height/month/year, and its Metadata (key, value)
rows and Tag labels end up identical to the donor's. -/
theorem duplicate_reuse_no_inference :
    (∀ (c : Catalog) (fs : Nat) (m5 : String) (p : Photo),
      get_photo_by_filesize_and_md5 c fs m5 = some p → p.is_completed = 1) ∧
    (∀ (env : ScanEnv) (fid : Nat) (acc : LoopSt) (cand : Candidate)
      (sz : Nat) (h5 : String) (donor : Photo),
      acc.catalog.WF →
      env.fingerprint cand.fullpath = .ok (sz, h5) →
      get_photo_by_filesize_and_md5 acc.catalog sz h5 = some donor →
      (∀ ex, cand.existing = some ex → donor.id ≠ ex.id) →
      (∀ ex, cand.existing = some ex → ∃ q ∈ acc.catalog.photos, q.id = ex.id) →
      env.copyFails cand.fullpath = false →
      ∃ (acc' : LoopSt) (pid : Nat),
        candidateStep env fid acc cand = .ok acc' ∧
        acc'.events = acc.events ++ [Event.fingerprintCall cand.fullpath] ∧
        acc'.duplicates = acc.duplicates + 1 ∧
        acc'.processed = acc.processed ∧
        (∃ p, get_photo_by_id acc'.catalog pid = some p ∧
          p.is_completed = 1 ∧ p.filesize = some sz ∧ p.md5 = some h5 ∧
          p.width = donor.width ∧ p.height = donor.height ∧
          p.month = donor.month ∧ p.year = donor.year) ∧
        (get_photo_metadata acc'.catalog pid).map mdProj =
          (get_photo_metadata acc'.catalog donor.id).map mdProj ∧
        (get_photo_tags acc'.catalog pid).map tagProj =
          (get_photo_tags acc'.catalog donor.id).map tagProj) := by
  constructor
  · intro c fs m5 p h
    exact (gpbfm_complete h).1
  intro env fid acc cand sz h5 donor hwf hfp hdup hneid hexmem hcopy
  have hdonor_mem : donor ∈ acc.catalog.photos := gpbfm_mem hdup
  have hdonor_lt : donor.id < acc.catalog.nextPhotoId := hwf.2.1 donor hdonor_mem
  cases hex : cand.existing with
  | some ex =>
    have hne : (donor.id != ex.id) = true := by simp [hneid ex hex]
    have hfind : (acc.catalog.photos.find? (fun p => p.id == ex.id)).isSome := by
      rw [List.find?_isSome]
      obtain ⟨q, hq, hqid⟩ := hexmem ex hex
      exact ⟨q, hq, by simp [hqid]⟩
    obtain ⟨q0, hq0⟩ := Option.isSome_iff_exists.mp hfind
    have hstep : candidateStep env fid acc cand = .ok
        { acc with
          catalog := (copy_photo_metadata_and_tags
            (update_photo acc.catalog ex.id
              { is_completed := some 1, filesize := some (some sz),
                md5 := some (some h5), width := some donor.width,
                height := some donor.height, month := some donor.month,
                year := some donor.year }) donor.id ex.id false).1,
          duplicates := acc.duplicates + 1,
          events := acc.events ++ [Event.fingerprintCall cand.fullpath] } := by
      unfold candidateStep
      rw [hfp]
      simp only
      rw [hdup]
      simp only
      rw [hex]
      simp only [hne, if_true, hcopy]
    set c1 := update_photo acc.catalog ex.id
      { is_completed := some 1, filesize := some (some sz),
        md5 := some (some h5), width := some donor.width,
        height := some donor.height, month := some donor.month,
        year := some donor.year } with hc1
    have hspec := copy_ok_spec c1 donor.id ex.id (Ne.symm (hneid ex hex))
    refine ⟨_, ex.id, hstep, rfl, rfl, rfl, ?_, ?_, ?_⟩
    · refine ⟨applyUpdates q0
        { is_completed := some 1, filesize := some (some sz),
          md5 := some (some h5), width := some donor.width,
          height := some donor.height, month := some donor.month,
          year := some donor.year }, ?_, rfl, rfl, rfl, rfl, rfl, rfl, rfl⟩
      show get_photo_by_id (copy_photo_metadata_and_tags c1 donor.id ex.id false).1 ex.id = _
      unfold get_photo_by_id
      rw [hspec.1]
      exact get_photo_by_id_update_photo _ hq0
    · show (get_photo_metadata (copy_photo_metadata_and_tags c1 donor.id ex.id false).1 ex.id).map mdProj = _
      rw [hspec.2.2.1, hspec.2.2.2.1]
    · show (get_photo_tags (copy_photo_metadata_and_tags c1 donor.id ex.id false).1 ex.id).map tagProj = _
      rw [hspec.2.2.2.2.1, hspec.2.2.2.2.2]
  | none =>
    have hne : acc.catalog.nextPhotoId ≠ donor.id := Ne.symm (Nat.ne_of_lt hdonor_lt)
    have hstep : candidateStep env fid acc cand = .ok
        { acc with
          catalog := (copy_photo_metadata_and_tags
            (add_photo acc.catalog fid cand.fullpath cand.filename 1
              (some sz) (some h5) donor.width donor.height donor.month donor.year).1
            donor.id acc.catalog.nextPhotoId false).1,
          duplicates := acc.duplicates + 1,
          events := acc.events ++ [Event.fingerprintCall cand.fullpath] } := by
      unfold candidateStep
      rw [hfp]
      simp only
      rw [hdup]
      simp only
      rw [hex]
      simp only [if_true, hcopy]
      rfl
    set c1 := (add_photo acc.catalog fid cand.fullpath cand.filename 1
      (some sz) (some h5) donor.width donor.height donor.month donor.year).1 with hc1
    have hspec := copy_ok_spec c1 donor.id acc.catalog.nextPhotoId hne
    refine ⟨_, acc.catalog.nextPhotoId, hstep, rfl, rfl, rfl, ?_, ?_, ?_⟩
    · refine ⟨⟨acc.catalog.nextPhotoId, fid, cand.fullpath, cand.filename, 1,
        some sz, some h5, donor.width, donor.height, donor.month, donor.year⟩,
        ?_, rfl, rfl, rfl, rfl, rfl, rfl, rfl⟩
      show get_photo_by_id (copy_photo_metadata_and_tags c1 donor.id
        acc.catalog.nextPhotoId false).1 acc.catalog.nextPhotoId = _
      unfold get_photo_by_id
      rw [hspec.1]
      exact get_photo_by_id_add_photo fid cand.fullpath cand.filename 1
        (some sz) (some h5) donor.width donor.height donor.month donor.year hwf.2.1
    · show (get_photo_metadata (copy_photo_metadata_and_tags c1 donor.id
        acc.catalog.nextPhotoId false).1 acc.catalog.nextPhotoId).map mdProj = _
      rw [hspec.2.2.1, hspec.2.2.2.1]
    · show (get_photo_tags (copy_photo_metadata_and_tags c1 donor.id
        acc.catalog.nextPhotoId false).1 acc.catalog.nextPhotoId).map tagProj = _
      rw [hspec.2.2.2.2.1, hspec.2.2.2.2.2]

def envC2w : ScanEnv :=
  { fingerprint := fun _ => .ok (5, "h"),
    infer := fun _ => .error "unused",
    copyFails := fun _ => false }

def donorC2w : Photo :=
  ⟨1, 1, "/other/orig.jpg", "orig.jpg", 1, some 5, some "h", some 9, some 8,
    some 7, some 2000⟩

def catC2w : Catalog :=
  { folders := [⟨1, "/other"⟩],
    photos := [donorC2w],
    metadata := [⟨1, 1, "q1", Val.str "a scene"⟩],
    tags := [⟨1, 1, "tree"⟩],
    nextFolderId := 2, nextPhotoId := 2, nextMetadataId := 2, nextTagId := 2 }

def accC2w : LoopSt := ⟨catC2w, 0, 0, 0, []⟩

def candC2w : Candidate := ⟨"copy.jpg", "/d2/copy.jpg", none⟩

/-- Witness for C2: a fresh byte-identical candidate against a concrete
one-photo catalog. -/
theorem duplicate_reuse_no_inference_witness :
    ∃ (acc' : LoopSt) (pid : Nat),
      candidateStep envC2w 7 accC2w candC2w = .ok acc' ∧
      acc'.events = accC2w.events ++ [Event.fingerprintCall candC2w.fullpath] ∧
      acc'.duplicates = accC2w.duplicates + 1 ∧
      acc'.processed = accC2w.processed ∧
      (∃ p, get_photo_by_id acc'.catalog pid = some p ∧
        p.is_completed = 1 ∧ p.filesize = some 5 ∧ p.md5 = some "h" ∧
        p.width = donorC2w.width ∧ p.height = donorC2w.height ∧
        p.month = donorC2w.month ∧ p.year = donorC2w.year) ∧
      (get_photo_metadata acc'.catalog pid).map mdProj =
        (get_photo_metadata acc'.catalog donorC2w.id).map mdProj ∧
      (get_photo_tags acc'.catalog pid).map tagProj =
        (get_photo_tags acc'.catalog donorC2w.id).map tagProj :=
  duplicate_reuse_no_inference.2 envC2w 7 accC2w candC2w 5 "h" donorC2w
    (by decide) rfl rfl (fun ex h => nomatch h) (fun ex h => nomatch h) rfl

theorem candidateStep_nodup {env : ScanEnv} {fid : Nat} {acc : LoopSt} {cand : Candidate}
    {sz : Nat} {h5 : String}
    (hfp : env.fingerprint cand.fullpath = .ok (sz, h5))
    (hnone : get_photo_by_filesize_and_md5 acc.catalog sz h5 = none) :
    candidateStep env fid acc cand = .ok (inferencePath env fid
      { acc with events := acc.events ++ [Event.fingerprintCall cand.fullpath] } cand) := by
  unfold candidateStep
  rw [hfp]
  simp only
  rw [hnone]

theorem inferencePath_err_none {env : ScanEnv} {fid : Nat} {acc : LoopSt}
    {cand : Candidate} {e : String}
    (hi : env.infer cand.fullpath = .error e) (hex : cand.existing = none) :
    inferencePath env fid acc cand =
      { catalog := (add_photo acc.catalog fid cand.fullpath cand.filename 0
          none none none none none none).1,
        processed := acc.processed, duplicates := acc.duplicates,
        failed := acc.failed + 1,
        events := acc.events ++ [Event.inferCall cand.fullpath] } := by
  unfold inferencePath
  rw [hi]
  unfold exceptHandler
  rw [hex]

theorem inferencePath_ok_none {env : ScanEnv} {fid : Nat} {acc : LoopSt}
    {cand : Candidate} {r : List (String × Val)}
    (hi : env.infer cand.fullpath = .ok r)
    (hex : cand.existing = none)
    (hq2 : ∀ n, dictGet r "q2" ≠ some (Val.nat n)) :
    ∃ c', inferencePath env fid acc cand =
      { catalog := c', processed := acc.processed + 1, duplicates := acc.duplicates,
        failed := acc.failed, events := acc.events ++ [Event.inferCall cand.fullpath] } ∧
      c'.photos = acc.catalog.photos ++
        [⟨acc.catalog.nextPhotoId, fid, cand.fullpath, cand.filename, 1,
          (dictGet r "filesize").bind Val.asNat, (dictGet r "md5").bind Val.asStr,
          (dictGet r "width").bind Val.asNat, (dictGet r "height").bind Val.asNat,
          (dictGet r "month").bind Val.asNat, (dictGet r "year").bind Val.asNat⟩] ∧
      c'.nextPhotoId = acc.catalog.nextPhotoId + 1 ∧
      c'.folders = acc.catalog.folders ∧
      (get_photo_metadata c' acc.catalog.nextPhotoId).map mdProj =
        r.filter (fun kv => !(coreKeys.contains kv.1)) ∧
      (∀ x, x ≠ acc.catalog.nextPhotoId →
        get_photo_metadata c' x = get_photo_metadata acc.catalog x) ∧
      (∀ x, x ≠ acc.catalog.nextPhotoId →
        get_photo_tags c' x = get_photo_tags acc.catalog x) := by
  unfold inferencePath
  rw [hi]
  simp only
  rw [hex]
  simp only
  set pid := acc.catalog.nextPhotoId with hpid
  set c1 := (add_photo acc.catalog fid cand.fullpath cand.filename 1
    ((dictGet r "filesize").bind Val.asNat) ((dictGet r "md5").bind Val.asStr)
    ((dictGet r "width").bind Val.asNat) ((dictGet r "height").bind Val.asNat)
    ((dictGet r "month").bind Val.asNat) ((dictGet r "year").bind Val.asNat)).1 with hc1
  set c3 := delete_photo_tags (delete_photo_metadata c1 pid) pid with hc3
  set c4 := (r.foldl (fun c kv => if coreKeys.contains kv.1 then c
    else (add_metadata c pid kv.1 kv.2).1) c3) with hc4
  have hc4_photos : c4.photos = acc.catalog.photos ++
      [⟨pid, fid, cand.fullpath, cand.filename, 1,
        (dictGet r "filesize").bind Val.asNat, (dictGet r "md5").bind Val.asStr,
        (dictGet r "width").bind Val.asNat, (dictGet r "height").bind Val.asNat,
        (dictGet r "month").bind Val.asNat, (dictGet r "year").bind Val.asNat⟩] := by
    rw [hc4, foldl_insert_metadata_photos, hc3]
    simp only [delete_photo_tags_photos, delete_photo_metadata_photos]
    rw [hc1, add_photo_fst_photos]
  have hc4_next : c4.nextPhotoId = acc.catalog.nextPhotoId + 1 := by
    rw [hc4, foldl_insert_metadata_nextPhotoId, hc3]
    simp only [delete_photo_tags_nextPhotoId, delete_photo_metadata_nextPhotoId]
    rfl
  have hc4_folders : c4.folders = acc.catalog.folders := by
    rw [hc4, foldl_insert_metadata_folders, hc3]
    simp only [delete_photo_tags_folders, delete_photo_metadata_folders]
    rfl
  have hc4_md_self : (get_photo_metadata c4 pid).map mdProj =
      r.filter (fun kv => !(coreKeys.contains kv.1)) := by
    rw [hc4, foldl_insert_metadata_get_self, hc3]
    rw [get_photo_metadata_delete_photo_tags, get_photo_metadata_delete_self]
    simp
  have hc4_md_other : ∀ x, x ≠ pid →
      get_photo_metadata c4 x = get_photo_metadata acc.catalog x := by
    intro x hx
    rw [hc4, foldl_insert_metadata_get_other _ _ _ _ hx, hc3]
    rw [get_photo_metadata_delete_photo_tags,
      get_photo_metadata_delete_other _ _ _ hx]
    rw [hc1, get_photo_metadata_add_photo]
  have hc4_tags_other : ∀ x, x ≠ pid →
      get_photo_tags c4 x = get_photo_tags acc.catalog x := by
    intro x hx
    have h1 : c4.tags = c3.tags := by
      rw [hc4, foldl_insert_metadata_tags]
    have h2 : get_photo_tags c4 x = get_photo_tags c3 x := by
      unfold get_photo_tags
      rw [h1]
    rw [h2, hc3, get_photo_tags_delete_other _ _ _ hx,
      get_photo_tags_delete_photo_metadata]
    rw [hc1, get_photo_tags_add_photo]
  cases hq : dictGet r "q2" with
  | none =>
    exact ⟨c4, rfl, hc4_photos, hc4_next, hc4_folders, hc4_md_self,
      hc4_md_other, hc4_tags_other⟩
  | some v =>
    cases v with
    | nat n => exact absurd hq (hq2 n)
    | str s =>
      set c5 := ((keywordTags s).foldl (fun c t => (add_tag c pid t).1) c4) with hc5
      refine ⟨c5, rfl, ?_, ?_, ?_, ?_, ?_, ?_⟩
      · rw [hc5, foldl_add_tag_photos]
        exact hc4_photos
      · rw [hc5, foldl_add_tag_nextPhotoId]
        exact hc4_next
      · rw [hc5, foldl_add_tag_folders]
        exact hc4_folders
      · rw [hc5, foldl_add_tag_get_metadata]
        exact hc4_md_self
      · intro x hx
        rw [hc5, foldl_add_tag_get_metadata]
        exact hc4_md_other x hx
      · intro x hx
        rw [hc5, foldl_add_tag_get_other _ _ _ _ hx]
        exact hc4_tags_other x hx

/-- C5: scanning a directory of three fresh candidates A, B, C (pairwise
non-duplicate fingerprints, none matching the catalog since it starts
empty) where inference fails for B: the scan returns a summary counting
exactly A and C as processed (processed = 2 of total 3, B not counted),
A's and C's Photo rows end up complete with their non-core inference
answers written as Metadata, and B's Photo row is created incomplete
with no Metadata; the batch was not aborted by B's failure. -/
theorem partial_failure_isolation
    (env : ScanEnv) (p nA nB nC : String) (szA szB szC : Nat) (hA hB hC : String)
    (ra rc : List (String × Val)) (eB : String)
    (himgA : isImageFile nA = true) (himgB : isImageFile nB = true)
    (himgC : isImageFile nC = true)
    (hfpA : env.fingerprint (joinPath p nA) = .ok (szA, hA))
    (hfpB : env.fingerprint (joinPath p nB) = .ok (szB, hB))
    (hfpC : env.fingerprint (joinPath p nC) = .ok (szC, hC))
    (hiA : env.infer (joinPath p nA) = .ok ra)
    (hiB : env.infer (joinPath p nB) = .error eB)
    (hiC : env.infer (joinPath p nC) = .ok rc)
    (hq2a : ∀ n, dictGet ra "q2" ≠ some (Val.nat n))
    (hq2c : ∀ n, dictGet rc "q2" ≠ some (Val.nat n))
    (hAB : ¬((dictGet ra "filesize").bind Val.asNat = some szB ∧
             (dictGet ra "md5").bind Val.asStr = some hB))
    (hAC : ¬((dictGet ra "filesize").bind Val.asNat = some szC ∧
             (dictGet ra "md5").bind Val.asStr = some hC)) :
    ∃ (st' : ScannerState) (ev : List Event),
      scan_directory env ⟨Catalog.empty, false⟩ ⟨p, true, [nA, nB, nC]⟩ =
        .ok (st', ev, ScanResult.summary ⟨p, 3, 2, 0, 0⟩) ∧
      (∃ pa, get_photo_by_id st'.catalog 1 = some pa ∧ pa.filename = nA ∧
        pa.is_completed = 1) ∧
      (get_photo_metadata st'.catalog 1).map mdProj =
        ra.filter (fun kv => !(coreKeys.contains kv.1)) ∧
      (∃ pb, get_photo_by_id st'.catalog 2 = some pb ∧ pb.filename = nB ∧
        pb.is_completed = 0) ∧
      get_photo_metadata st'.catalog 2 = [] ∧
      (∃ pc, get_photo_by_id st'.catalog 3 = some pc ∧ pc.filename = nC ∧
        pc.is_completed = 1) ∧
      (get_photo_metadata st'.catalog 3).map mdProj =
        rc.filter (fun kv => !(coreKeys.contains kv.1)) := by
  set c0 : Catalog := Catalog.mk [⟨1, p⟩] [] [] [] 2 1 1 1 with hc0def
  have hadd : add_folder Catalog.empty p = (c0, 1) := rfl
  set candA : Candidate := ⟨nA, joinPath p nA, none⟩ with hcandA
  set candB : Candidate := ⟨nB, joinPath p nB, none⟩ with hcandB
  set candC : Candidate := ⟨nC, joinPath p nC, none⟩ with hcandC
  set acc0 : LoopSt := LoopSt.mk c0 0 0 0 [] with hacc0
  -- Step A
  have hdupA : get_photo_by_filesize_and_md5 acc0.catalog szA hA = none := rfl
  have hstepA0 := @candidateStep_nodup env 1 acc0 candA szA hA hfpA hdupA
  obtain ⟨cA, hAeq, hAphotos, hAnext, hAfolders, hAmdself, hAmdother, hAtagsother⟩ :=
    @inferencePath_ok_none env 1
      { acc0 with events := acc0.events ++ [Event.fingerprintCall candA.fullpath] }
      candA ra hiA rfl hq2a
  have hAphotos2 : cA.photos = [⟨1, 1, joinPath p nA, nA, 1,
      (dictGet ra "filesize").bind Val.asNat, (dictGet ra "md5").bind Val.asStr,
      (dictGet ra "width").bind Val.asNat, (dictGet ra "height").bind Val.asNat,
      (dictGet ra "month").bind Val.asNat, (dictGet ra "year").bind Val.asNat⟩] :=
    hAphotos.trans rfl
  have hAnext2 : cA.nextPhotoId = 2 := hAnext.trans rfl
  have hAmdself2 : (get_photo_metadata cA 1).map mdProj =
      ra.filter (fun kv => !(coreKeys.contains kv.1)) := hAmdself
  have hAmdother2 : ∀ x, x ≠ 1 → get_photo_metadata cA x = get_photo_metadata c0 x :=
    fun x hx => hAmdother x hx
  set accA : LoopSt := LoopSt.mk cA 1 0 0
    [Event.fingerprintCall candA.fullpath, Event.inferCall candA.fullpath] with haccA
  have hstepA : candidateStep env 1 acc0 candA = .ok accA := by
    rw [hstepA0, hAeq]
    rfl
  -- Step B
  have hdupB : get_photo_by_filesize_and_md5 accA.catalog szB hB = none := by
    apply gpbfm_none_of_forall
    intro q hq
    have hq2 : q ∈ cA.photos := hq
    rw [hAphotos2] at hq2
    simp only [List.mem_singleton] at hq2
    subst hq2
    intro hcontr
    exact hAB ⟨hcontr.1, hcontr.2.1⟩
  have hstepB0 := @candidateStep_nodup env 1 accA candB szB hB hfpB hdupB
  have hBeq := @inferencePath_err_none env 1
    { accA with events := accA.events ++ [Event.fingerprintCall candB.fullpath] }
    candB eB hiB rfl
  set cB : Catalog := (add_photo cA 1 candB.fullpath candB.filename 0
    none none none none none none).1 with hcBdef
  set accB : LoopSt := LoopSt.mk cB 1 0 1
    [Event.fingerprintCall candA.fullpath, Event.inferCall candA.fullpath,
     Event.fingerprintCall candB.fullpath, Event.inferCall candB.fullpath] with haccB
  have hstepB : candidateStep env 1 accA candB = .ok accB := by
    rw [hstepB0, hBeq]
    rfl
  have hBphotos2 : cB.photos = [⟨1, 1, joinPath p nA, nA, 1,
      (dictGet ra "filesize").bind Val.asNat, (dictGet ra "md5").bind Val.asStr,
      (dictGet ra "width").bind Val.asNat, (dictGet ra "height").bind Val.asNat,
      (dictGet ra "month").bind Val.asNat, (dictGet ra "year").bind Val.asNat⟩,
      ⟨2, 1, joinPath p nB, nB, 0, none, none, none, none, none, none⟩] := by
    rw [hcBdef, add_photo_fst_photos, hAphotos2, hAnext2]
    rfl
  have hBnext2 : cB.nextPhotoId = 3 := by
    rw [hcBdef]
    show cA.nextPhotoId + 1 = 3
    rw [hAnext2]
  have hBmd : ∀ x, get_photo_metadata cB x = get_photo_metadata cA x := by
    intro x
    rw [hcBdef, get_photo_metadata_add_photo]
  -- Step C
  have hdupC : get_photo_by_filesize_and_md5 accB.catalog szC hC = none := by
    apply gpbfm_none_of_forall
    intro q hq
    have hq2 : q ∈ cB.photos := hq
    rw [hBphotos2] at hq2
    simp only [List.mem_cons, List.mem_singleton, List.not_mem_nil, or_false] at hq2
    rcases hq2 with rfl | rfl
    · intro hcontr
      exact hAC ⟨hcontr.1, hcontr.2.1⟩
    · intro hcontr
      have h01 : (0 : Nat) ≠ 1 := by decide
      exact h01 hcontr.2.2
  have hstepC0 := @candidateStep_nodup env 1 accB candC szC hC hfpC hdupC
  obtain ⟨cC, hCeq, hCphotos, hCnext, hCfolders, hCmdself, hCmdother, hCtagsother⟩ :=
    @inferencePath_ok_none env 1
      { accB with events := accB.events ++ [Event.fingerprintCall candC.fullpath] }
      candC rc hiC rfl hq2c
  have hCphotos2 : cC.photos = [⟨1, 1, joinPath p nA, nA, 1,
      (dictGet ra "filesize").bind Val.asNat, (dictGet ra "md5").bind Val.asStr,
      (dictGet ra "width").bind Val.asNat, (dictGet ra "height").bind Val.asNat,
      (dictGet ra "month").bind Val.asNat, (dictGet ra "year").bind Val.asNat⟩,
      ⟨2, 1, joinPath p nB, nB, 0, none, none, none, none, none, none⟩,
      ⟨3, 1, joinPath p nC, nC, 1,
      (dictGet rc "filesize").bind Val.asNat, (dictGet rc "md5").bind Val.asStr,
      (dictGet rc "width").bind Val.asNat, (dictGet rc "height").bind Val.asNat,
      (dictGet rc "month").bind Val.asNat, (dictGet rc "year").bind Val.asNat⟩] := by
    have h1 : cC.photos = cB.photos ++ [⟨cB.nextPhotoId, 1, candC.fullpath,
        candC.filename, 1,
        (dictGet rc "filesize").bind Val.asNat, (dictGet rc "md5").bind Val.asStr,
        (dictGet rc "width").bind Val.asNat, (dictGet rc "height").bind Val.asNat,
        (dictGet rc "month").bind Val.asNat, (dictGet rc "year").bind Val.asNat⟩] :=
      hCphotos
    rw [h1, hBphotos2, hBnext2]
    rfl
  have hCmdself2 : (get_photo_metadata cC 3).map mdProj =
      rc.filter (fun kv => !(coreKeys.contains kv.1)) := by
    have : (get_photo_metadata cC cB.nextPhotoId).map mdProj =
        rc.filter (fun kv => !(coreKeys.contains kv.1)) := hCmdself
    rw [hBnext2] at this
    exact this
  have hCmdother2 : ∀ x, x ≠ 3 → get_photo_metadata cC x = get_photo_metadata cB x := by
    intro x hx
    have hx2 : x ≠ cB.nextPhotoId := by
      rw [hBnext2]
      exact hx
    exact hCmdother x hx2
  set accC : LoopSt := LoopSt.mk cC 2 0 1
    [Event.fingerprintCall candA.fullpath, Event.inferCall candA.fullpath,
     Event.fingerprintCall candB.fullpath, Event.inferCall candB.fullpath,
     Event.fingerprintCall candC.fullpath, Event.inferCall candC.fullpath] with haccC
  have hstepC : candidateStep env 1 accB candC = .ok accC := by
    rw [hstepC0, hCeq]
    rfl
  -- the fold over the three candidates
  have hfold : List.foldlM (candidateStep env 1) (LoopSt.mk c0 0 0 0 [])
      [candA, candB, candC] = .ok accC := by
    rw [List.foldlM_cons, hstepA]
    simp only [Bind.bind, Except.bind]
    rw [List.foldlM_cons, hstepB]
    simp only [Bind.bind, Except.bind]
    rw [List.foldlM_cons, hstepC]
    simp only [Bind.bind, Except.bind]
    simp [List.foldlM_nil, pure, Except.pure]
  -- candidate-list construction
  have hentries : dirEntriesFor c0 1 ⟨p, true, [nA, nB, nC]⟩ = [candA, candB, candC] := by
    unfold dirEntriesFor
    simp only [List.filter_cons, himgA, himgB, himgC, if_true, List.filter_nil,
      List.map_cons, List.map_nil]
    rfl
  have hunproc : ([candA, candB, candC].filter
      (fun e => !isKnownComplete e.existing)) = [candA, candB, candC] := by
    rfl
  have hproc0 : ([candA, candB, candC].filter
      (fun e => isKnownComplete e.existing)) = [] := by
    rfl
  -- the scan itself
  have hscan : scan_directory env ⟨Catalog.empty, false⟩ ⟨p, true, [nA, nB, nC]⟩ =
      .ok (⟨cC, true⟩, Event.loadModel :: accC.events,
        ScanResult.summary ⟨p, 3, 2, 0, 0⟩) := by
    unfold scan_directory
    rw [if_neg (by simp)]
    simp only [ensure_model_loaded, Bool.false_eq_true, if_false, hadd]
    simp only [hentries, hunproc, hproc0, hfold]
    rfl
  refine ⟨ScannerState.mk cC true, Event.loadModel :: accC.events, hscan,
    ?_, ?_, ?_, ?_, ?_, ?_⟩
  · refine ⟨⟨1, 1, joinPath p nA, nA, 1,
      (dictGet ra "filesize").bind Val.asNat, (dictGet ra "md5").bind Val.asStr,
      (dictGet ra "width").bind Val.asNat, (dictGet ra "height").bind Val.asNat,
      (dictGet ra "month").bind Val.asNat, (dictGet ra "year").bind Val.asNat⟩,
      ?_, rfl, rfl⟩
    show get_photo_by_id cC 1 = _
    unfold get_photo_by_id
    rw [hCphotos2]
    rfl
  · show (get_photo_metadata cC 1).map mdProj = _
    rw [hCmdother2 1 (by decide), hBmd 1, hAmdself2]
  · refine ⟨⟨2, 1, joinPath p nB, nB, 0, none, none, none, none, none, none⟩,
      ?_, rfl, rfl⟩
    show get_photo_by_id cC 2 = _
    unfold get_photo_by_id
    rw [hCphotos2]
    rfl
  · show get_photo_metadata cC 2 = []
    rw [hCmdother2 2 (by decide), hBmd 2, hAmdother2 2 (by decide)]
    rfl
  · refine ⟨⟨3, 1, joinPath p nC, nC, 1,
      (dictGet rc "filesize").bind Val.asNat, (dictGet rc "md5").bind Val.asStr,
      (dictGet rc "width").bind Val.asNat, (dictGet rc "height").bind Val.asNat,
      (dictGet rc "month").bind Val.asNat, (dictGet rc "year").bind Val.asNat⟩,
      ?_, rfl, rfl⟩
    show get_photo_by_id cC 3 = _
    unfold get_photo_by_id
    rw [hCphotos2]
    rfl
  · exact hCmdself2

def raC5w : List (String × Val) :=
  [("filesize", Val.nat 1), ("md5", Val.str "x"), ("q1", Val.str "da"),
   ("q2", Val.str "s1, s2")]

def rcC5w : List (String × Val) :=
  [("filesize", Val.nat 3), ("md5", Val.str "z"), ("q1", Val.str "dc"),
   ("q2", Val.str "s3")]

def envC5w : ScanEnv :=
  { fingerprint := fun q => if q == "/g/a.jpg" then .ok (1, "x")
      else if q == "/g/b.jpg" then .ok (2, "y")
      else if q == "/g/c.jpg" then .ok (3, "z") else .error "io",
    infer := fun q => if q == "/g/a.jpg" then .ok raC5w
      else if q == "/g/c.jpg" then .ok rcC5w else .error "model",
    copyFails := fun _ => false }

/-- Witness for C5 at a concrete three-file directory. -/
theorem partial_failure_isolation_witness :
    ∃ (st' : ScannerState) (ev : List Event),
      scan_directory envC5w ⟨Catalog.empty, false⟩
          ⟨"/g", true, ["a.jpg", "b.jpg", "c.jpg"]⟩ =
        .ok (st', ev, ScanResult.summary ⟨"/g", 3, 2, 0, 0⟩) ∧
      (∃ pa, get_photo_by_id st'.catalog 1 = some pa ∧ pa.filename = "a.jpg" ∧
        pa.is_completed = 1) ∧
      (get_photo_metadata st'.catalog 1).map mdProj =
        raC5w.filter (fun kv => !(coreKeys.contains kv.1)) ∧
      (∃ pb, get_photo_by_id st'.catalog 2 = some pb ∧ pb.filename = "b.jpg" ∧
        pb.is_completed = 0) ∧
      get_photo_metadata st'.catalog 2 = [] ∧
      (∃ pc, get_photo_by_id st'.catalog 3 = some pc ∧ pc.filename = "c.jpg" ∧
        pc.is_completed = 1) ∧
      (get_photo_metadata st'.catalog 3).map mdProj =
        rcC5w.filter (fun kv => !(coreKeys.contains kv.1)) :=
  partial_failure_isolation envC5w "/g" "a.jpg" "b.jpg" "c.jpg" 1 2 3 "x" "y" "z"
    raC5w rcC5w "model" (by decide) (by decide) (by decide) rfl rfl rfl rfl rfl rfl
    (fun n h => by simp [raC5w, dictGet] at h)
    (fun n h => by simp [rcC5w, dictGet] at h)
    (by decide) (by decide)
